import Mathlib

/-!
Verification development for the "Weird Visual Chaos Engine" software renderer.

The C++ core is shallowly embedded:
* machine `float` arithmetic is modelled exactly over `ℚ` where the source only
  uses field operations and comparisons (the rasterizer), and over `ℝ` where the
  source calls `sin`/`cos`/`sqrt` (fractal library, field engine, entities);
* C `(int)` and `(uint8_t)` casts are modelled as truncation toward zero
  (`ratTrunc`, `cppTruncZ`, `byteOfRat`);
* packed 32-bit ARGB colors are `ℕ` values manipulated with `>>>`, `<<<`,
  `&&&`, `|||` exactly as the source does;
* the process-global random generator is modelled as an oracle
  `rng : ℝ → ℝ → ℝ` (resp. `rngInt : ℤ → ℤ → ℤ`): every call site
  `randomFloat(a, b)` becomes `rng a b`;
* 2D grids appear in two forms: a storage-level form `List (List _)` mirroring
  `std::vector<std::vector<float>>` (used where `std::vector::resize` semantics
  matter), and a field-level form `ℤ → ℤ → ℝ` of total maps (used for the
  update pass, which never reshapes a grid and never reads out of bounds
  without an explicit bounds check, which is also embedded).
-/

/-! ## Preliminaries: C-style casts, ranges, point updates -/

/-- Truncation of a rational toward zero, modelling a C++ `(int)` cast of a
`float` value. -/
def ratTrunc (q : ℚ) : ℤ :=
  if 0 ≤ q then ⌊q⌋ else -⌊-q⌋

/-- Truncation of a real toward zero, modelling a C++ `(int)` cast. -/
noncomputable def cppTruncZ (r : ℝ) : ℤ :=
  if 0 ≤ r then ⌊r⌋ else -⌊-r⌋

/-- C `fmod` on reals: `fmod(a, b) = a - b * trunc(a / b)` (rounds toward
zero, result has the sign of `a`). -/
noncomputable def cppFmod (a b : ℝ) : ℝ :=
  a - b * (cppTruncZ (a / b) : ℝ)

/-- The inclusive integer range `[a, b]` as a list (empty when `b < a`),
modelling a `for (i = a; i <= b; i++)` loop. -/
def intRange (a b : ℤ) : List ℤ :=
  (List.range (b + 1 - a).toNat).map (fun i => a + i)

/-- Point update of a two-argument map (row `y`, column `x`), modelling an
in-place write `g[y][x] = v`. -/
def fupd {α : Type} (f : ℤ → ℤ → α) (y x : ℤ) (v : α) : ℤ → ℤ → α :=
  fun a b => if a = y ∧ b = x then v else f a b

/-- The byte a C++ `(uint8_t)` cast extracts from a nonnegative in-range
float: truncate toward zero, wrap to 8 bits. -/
def byteOfRat (q : ℚ) : ℕ :=
  (ratTrunc q).toNat % 256

/-- The alpha byte of a packed 32-bit ARGB color. -/
def alphaByte (c : ℕ) : ℕ :=
  (c >>> 24) &&& 0xFF

/-! ## Pixel buffer and rasterizer (`pixelbuffer.cpp`)

Coordinates are `ℤ` (C++ `int`), colors packed `ℕ`, float interpolation is
exact `ℚ` arithmetic.  The pixel store is a total map; `setPixel`/`getPixel`
carry the source's bounds checks. -/

structure PixelBuffer where
  width : ℤ
  height : ℤ
  pixels : ℤ → ℤ → ℕ

/-- `PixelBuffer::setPixel`: bounds-checked write, silently ignored outside
`[0,width) × [0,height)`. -/
def PixelBuffer.setPixel (b : PixelBuffer) (x y : ℤ) (color : ℕ) : PixelBuffer :=
  if 0 ≤ x ∧ x < b.width ∧ 0 ≤ y ∧ y < b.height then
    { b with pixels := fun u v => if u = x ∧ v = y then color else b.pixels u v }
  else b

/-- `PixelBuffer::getPixel`: bounds-checked read, `0` outside bounds. -/
def PixelBuffer.getPixel (b : PixelBuffer) (x y : ℤ) : ℕ :=
  if 0 ≤ x ∧ x < b.width ∧ 0 ≤ y ∧ y < b.height then b.pixels x y else 0

/-- The float RGBA helper struct `PixelBuffer::Color` (channels in `[0,1]`). -/
structure CColor where
  r : ℚ
  g : ℚ
  b : ℚ
  a : ℚ

/-- `Color(uint32_t argb)`: unpack bytes and divide by 255. -/
def CColor.ofARGB (argb : ℕ) : CColor :=
  { a := (((argb >>> 24) &&& 0xFF : ℕ) : ℚ) / 255
    r := (((argb >>> 16) &&& 0xFF : ℕ) : ℚ) / 255
    g := (((argb >>> 8) &&& 0xFF : ℕ) : ℚ) / 255
    b := ((argb &&& 0xFF : ℕ) : ℚ) / 255 }

/-- `Color::toARGB`: scale channels by 255, cast to `uint8_t`, repack. -/
def CColor.toARGB (c : CColor) : ℕ :=
  (byteOfRat (c.a * 255) <<< 24) ||| (byteOfRat (c.r * 255) <<< 16) |||
    (byteOfRat (c.g * 255) <<< 8) ||| byteOfRat (c.b * 255)

/-- `Color::operator+`. -/
def CColor.add (c d : CColor) : CColor :=
  ⟨c.r + d.r, c.g + d.g, c.b + d.b, c.a + d.a⟩

/-- `Color::operator*` (scalar). -/
def CColor.smul (c : CColor) (s : ℚ) : CColor :=
  ⟨c.r * s, c.g * s, c.b * s, c.a * s⟩

/-- The scanline inner loop of `fillTriangle`: swap endpoints if reversed,
then write every pixel of the span. -/
def drawScanline (b : PixelBuffer) (y xs xe : ℤ) (color : ℕ) : PixelBuffer :=
  let p := if xs > xe then (xe, xs) else (xs, xe)
  (intRange p.1 p.2).foldl (fun b x => b.setPixel x y color) b

/-- `PixelBuffer::fillTriangle` (edge-scanline algorithm): sort vertices by
`y`, bail out on `y0 == y2`, interpolate the left edge along `v0→v2` and the
right edge along `v0→v1` then `v1→v2`. -/
def fillTriangle (buf : PixelBuffer) (x0 y0 x1 y1 x2 y2 : ℤ) (color : ℕ) :
    PixelBuffer :=
  let s1 := if y0 > y1 then (x1, y1, x0, y0) else (x0, y0, x1, y1)
  match s1 with
  | (x0, y0, x1, y1) =>
    let s2 := if y0 > y2 then (x2, y2, x0, y0) else (x0, y0, x2, y2)
    match s2 with
    | (x0, y0, x2, y2) =>
      let s3 := if y1 > y2 then (x2, y2, x1, y1) else (x1, y1, x2, y2)
      match s3 with
      | (x1, y1, x2, y2) =>
        if y0 = y2 then buf
        else
          (intRange y0 y2).foldl (fun b y =>
            let xl : ℚ :=
              if y2 ≠ y0 then
                (x0 : ℚ) + ((x2 - x0 : ℤ) : ℚ) * ((y - y0 : ℤ) : ℚ) / ((y2 - y0 : ℤ) : ℚ)
              else (x0 : ℚ)
            let xr : ℚ :=
              if y ≤ y1 then
                if y1 ≠ y0 then
                  (x0 : ℚ) + ((x1 - x0 : ℤ) : ℚ) * ((y - y0 : ℤ) : ℚ) / ((y1 - y0 : ℤ) : ℚ)
                else (x0 : ℚ)
              else
                if y2 ≠ y1 then
                  (x1 : ℚ) + ((x2 - x1 : ℤ) : ℚ) * ((y - y1 : ℤ) : ℚ) / ((y2 - y1 : ℤ) : ℚ)
                else (x1 : ℚ)
            drawScanline b y (ratTrunc xl) (ratTrunc xr) color) buf

/-- The `sign` helper lambda of the barycentric fills (an integer 2D cross
product, returned as float). -/
def sign2 (x0 y0 x1 y1 x2 y2 : ℤ) : ℚ :=
  (((x0 - x2) * (y1 - y2) - (x1 - x2) * (y0 - y2) : ℤ) : ℚ)

/-- `PixelBuffer::fillTriangleBarycentric`: clamped bounding box scan with a
degenerate-area guard (`|area| < 0.001`) and a `w0,w1,w2 ≥ 0` inside test. -/
def fillTriangleBarycentric (buf : PixelBuffer) (x0 y0 x1 y1 x2 y2 : ℤ)
    (color : ℕ) : PixelBuffer :=
  let minX := max 0 (min x0 (min x1 x2))
  let maxX := min (buf.width - 1) (max x0 (max x1 x2))
  let minY := max 0 (min y0 (min y1 y2))
  let maxY := min (buf.height - 1) (max y0 (max y1 y2))
  let area := sign2 x0 y0 x1 y1 x2 y2
  if |area| < 1 / 1000 then buf
  else
    (intRange minY maxY).foldl (fun b y =>
      (intRange minX maxX).foldl (fun b x =>
        let w0 := sign2 x y x1 y1 x2 y2 / area
        let w1 := sign2 x0 y0 x y x2 y2 / area
        let w2 := sign2 x0 y0 x1 y1 x y / area
        if 0 ≤ w0 ∧ 0 ≤ w1 ∧ 0 ≤ w2 then b.setPixel x y color else b) b) buf

/-- `PixelBuffer::fillTriangleGradient`: the same bounding-box scan with
per-vertex colors blended by the barycentric weights. -/
def fillTriangleGradient (buf : PixelBuffer) (x0 y0 : ℤ) (color0 : ℕ)
    (x1 y1 : ℤ) (color1 : ℕ) (x2 y2 : ℤ) (color2 : ℕ) : PixelBuffer :=
  let minX := max 0 (min x0 (min x1 x2))
  let maxX := min (buf.width - 1) (max x0 (max x1 x2))
  let minY := max 0 (min y0 (min y1 y2))
  let maxY := min (buf.height - 1) (max y0 (max y1 y2))
  let c0 := CColor.ofARGB color0
  let c1 := CColor.ofARGB color1
  let c2 := CColor.ofARGB color2
  let area := sign2 x0 y0 x1 y1 x2 y2
  if |area| < 1 / 1000 then buf
  else
    (intRange minY maxY).foldl (fun b y =>
      (intRange minX maxX).foldl (fun b x =>
        let w0 := sign2 x y x1 y1 x2 y2 / area
        let w1 := sign2 x0 y0 x y x2 y2 / area
        let w2 := sign2 x0 y0 x1 y1 x y / area
        if 0 ≤ w0 ∧ 0 ≤ w1 ∧ 0 ≤ w2 then
          b.setPixel x y ((((c0.smul w0).add (c1.smul w1)).add (c2.smul w2)).toARGB)
        else b) b) buf

/-! ## Fractal function library (`fractals.cpp`)

Escape-time loops become fuel recursion: `fuel` is the remaining iteration
budget, `i` the C++ loop counter; exhausting the budget returns `1.0`. -/

/-- Loop of `computeMandelbrot` (`maxIterations = 25`, bailout `16`). -/
noncomputable def mandelIter (cx cy : ℝ) : ℕ → ℕ → ℝ → ℝ → ℝ
  | 0, _, _, _ => 1
  | fuel + 1, i, zx, zy =>
    if zx * zx + zy * zy > 16 then (i : ℝ) / 25
    else mandelIter cx cy fuel (i + 1) (zx * zx - zy * zy + cx) (2 * zx * zy + cy)

/-- `computeMandelbrot`: `c` is the input point, `z` starts at the origin. -/
noncomputable def computeMandelbrot (x y : ℝ) : ℝ :=
  mandelIter x y 25 0 0 0

/-- Loop of `computeJulia` (`maxIterations = 25`, bailout `16`). -/
noncomputable def juliaIter (cx cy : ℝ) : ℕ → ℕ → ℝ → ℝ → ℝ
  | 0, _, _, _ => 1
  | fuel + 1, i, zx, zy =>
    if zx * zx + zy * zy > 16 then (i : ℝ) / 25
    else juliaIter cx cy fuel (i + 1) (zx * zx - zy * zy + cx) (2 * zx * zy + cy)

/-- `computeJulia`: `z` starts at the input point, `c` is given explicitly. -/
noncomputable def computeJulia (x y cx cy : ℝ) : ℝ :=
  juliaIter cx cy 25 0 x y

/-- Loop of `computeBurningShip` (`maxIterations = 20`, bailout `16`,
absolute values applied to both components of the next iterate). -/
noncomputable def burningShipIter (cx cy : ℝ) : ℕ → ℕ → ℝ → ℝ → ℝ
  | 0, _, _, _ => 1
  | fuel + 1, i, zx, zy =>
    if zx * zx + zy * zy > 16 then (i : ℝ) / 20
    else burningShipIter cx cy fuel (i + 1) |zx * zx - zy * zy + cx| |2 * zx * zy + cy|

/-- `computeBurningShip`. -/
noncomputable def computeBurningShip (x y : ℝ) : ℝ :=
  burningShipIter x y 20 0 0 0

/-- Loop of `computeTricorn` (`maxIterations = 50`, bailout `4`,
conjugated update `zy ← -2·zx·zy + cy`). -/
noncomputable def tricornIter (cx cy : ℝ) : ℕ → ℕ → ℝ → ℝ → ℝ
  | 0, _, _, _ => 1
  | fuel + 1, i, zx, zy =>
    if zx * zx + zy * zy > 4 then (i : ℝ) / 50
    else tricornIter cx cy fuel (i + 1) (zx * zx - zy * zy + cx) (-2 * zx * zy + cy)

/-- `computeTricorn`. -/
noncomputable def computeTricorn (x y : ℝ) : ℝ :=
  tricornIter x y 50 0 0 0

/-- Loop of `computePhoenix` (`maxIterations = 50`, bailout `4`, two-term
recurrence carrying the previous iterate `(px, py)`). -/
noncomputable def phoenixIter (cx cy : ℝ) : ℕ → ℕ → ℝ → ℝ → ℝ → ℝ → ℝ
  | 0, _, _, _, _, _ => 1
  | fuel + 1, i, zx, zy, px, py =>
    if zx * zx + zy * zy > 4 then (i : ℝ) / 50
    else
      phoenixIter cx cy fuel (i + 1) (zx * zx - zy * zy + cx + 0.5 * px)
        (2 * zx * zy + cy + 0.5 * py) zx zy

/-- `computePhoenix`. -/
noncomputable def computePhoenix (x y : ℝ) : ℝ :=
  phoenixIter x y 50 0 0 0 0 0

/-- Loop of `computeNova` (`maxIterations = 50`): relaxed Newton iteration on
`z³ − 1`, with early return on a degenerate denominator (`< 0.001`) or on
convergence (combined step `< 0.001`). -/
noncomputable def novaIter : ℕ → ℕ → ℝ → ℝ → ℝ
  | 0, _, _, _ => 1
  | fuel + 1, i, zx, zy =>
    let zx3 := zx * zx * zx - 3 * zx * zy * zy
    let zy3 := 3 * zx * zx * zy - zy * zy * zy
    let denominator := 9 * (zx * zx + zy * zy)
    if denominator < 0.001 then (i : ℝ) / 50
    else
      let newZx := zx - (zx3 - zx) / denominator
      let newZy := zy - zy3 / denominator
      if |newZx - zx| + |newZy - zy| < 0.001 then (i : ℝ) / 50
      else novaIter fuel (i + 1) newZx newZy

/-- `computeNova`. -/
noncomputable def computeNova (x y : ℝ) : ℝ :=
  novaIter 50 0 x y

/-- `computePsychedelicWaves`: closed-form trig combination. -/
noncomputable def computePsychedelicWaves (x y : ℝ) : ℝ :=
  (Real.sin (x * 5) * Real.cos (y * 3) + Real.sin (x * y * 2) + Real.cos (x + y))
    * 0.5 + 0.5

/-- The Hénon-like iteration of `computeStrangeAttractor`
(`a = 1.4`, `b = 0.3`). -/
def henonIter : ℕ → ℝ × ℝ → ℝ × ℝ
  | 0, p => p
  | n + 1, (x, y) => henonIter n (1 - 1.4 * x * x + y, 0.3 * x)

/-- `computeStrangeAttractor`: 10 Hénon steps, then
`fmod(sqrt(x² + y²), 1.0)`. -/
noncomputable def computeStrangeAttractor (x y : ℝ) : ℝ :=
  let p := henonIter 10 (x, y)
  cppFmod (Real.sqrt (p.1 * p.1 + p.2 * p.2)) 1

/-- `computeChaosFractal`: five harmonically weighted trig terms, then
`fmod(|sum|, 1.0)`. -/
noncomputable def computeChaosFractal (x y : ℝ) : ℝ :=
  let result := (List.range 5).foldl
    (fun acc i =>
      acc + Real.sin (x * ((i : ℝ) + 1) * 2) * Real.cos (y * ((i : ℝ) + 1) * 1.5)
        / ((i : ℝ) + 1)) 0
  cppFmod |result| 1

/-! ## Color utilities (`utils.cpp`) -/

/-- `hsvToRgb`: standard HSV-sector conversion; alpha is the literal
`0xFF000000` the result is or-ed onto. -/
noncomputable def hsvToRgb (h s v : ℝ) : ℕ :=
  let c := v * s
  let x := c * (1 - |cppFmod (h / 60) 2 - 1|)
  let m := v - c
  let rgb : ℝ × ℝ × ℝ :=
    if 0 ≤ h ∧ h < 60 then (c, x, 0)
    else if 60 ≤ h ∧ h < 120 then (x, c, 0)
    else if 120 ≤ h ∧ h < 180 then (0, c, x)
    else if 180 ≤ h ∧ h < 240 then (0, x, c)
    else if 240 ≤ h ∧ h < 300 then (x, 0, c)
    else (c, 0, x)
  let ri := (cppTruncZ ((rgb.1 + m) * 255)).toNat % 256
  let gi := (cppTruncZ ((rgb.2.1 + m) * 255)).toNat % 256
  let bi := (cppTruncZ ((rgb.2.2 + m) * 255)).toNat % 256
  0xFF000000 ||| (ri <<< 16) ||| (gi <<< 8) ||| bi

/-! ## Field engine update pass (`fractal_system.cpp`, `update` inner loop)

The per-cell loop body of `FractalGameOfLifeSystem::update` is embedded over
total-map grids.  `cellStep` is one cell's evaluation; a pass folds it over a
list of cell coordinates, which for the source is the row-major interior
enumeration `interiorCells`. -/

structure FieldParams where
  width : ℤ
  height : ℤ
  time : ℝ
  fractalType : ℤ
  zoomLevel : ℝ
  centerX : ℝ
  centerY : ℝ
  centerZ : ℝ
  warpIntensity : ℝ
  colorShift : ℝ
  pulseSpeed : ℝ
  chaosLevel : ℝ
  isTripping : Bool
  attractors : List (ℝ × ℝ × ℝ)

/-- The seven grids mutated during one `update` pass (value grid, next-value
grid, energy, velocity x/y, trail, packed color), indexed `(row, column)`. -/
structure FieldGrids where
  grid : ℤ → ℤ → ℝ
  next : ℤ → ℤ → ℝ
  energy : ℤ → ℤ → ℝ
  velX : ℤ → ℤ → ℝ
  velY : ℤ → ℤ → ℝ
  trail : ℤ → ℤ → ℝ
  color : ℤ → ℤ → ℕ

/-- Fractal-space x coordinate of a grid column:
`(x - width*0.5) / (width*0.5) * zoomLevel + center.x`. -/
noncomputable def fxAt (p : FieldParams) (x : ℤ) : ℝ :=
  ((x : ℝ) - (p.width : ℝ) * 0.5) / ((p.width : ℝ) * 0.5) * p.zoomLevel + p.centerX

/-- Fractal-space y coordinate of a grid row. -/
noncomputable def fyAt (p : FieldParams) (y : ℤ) : ℝ :=
  ((y : ℝ) - (p.height : ℝ) * 0.5) / ((p.height : ℝ) * 0.5) * p.zoomLevel + p.centerY

/-- Sinusoidally warped x coordinate. -/
noncomputable def warpXAt (p : FieldParams) (x y : ℤ) : ℝ :=
  fxAt p x + Real.sin (p.time * 2 + fyAt p y * 3) * p.warpIntensity * 0.5

/-- Sinusoidally warped y coordinate. -/
noncomputable def warpYAt (p : FieldParams) (x y : ℤ) : ℝ :=
  fyAt p y + Real.cos (p.time * 1.5 + fxAt p x * 2) * p.warpIntensity * 0.5

/-- `neighbors1`: unweighted 8-neighbour sum (no bounds check: only called on
interior cells). -/
noncomputable def neighbors1 (g : ℤ → ℤ → ℝ) (x y : ℤ) : ℝ :=
  ((intRange (-1) 1).map (fun dy =>
    ((intRange (-1) 1).map (fun dx =>
      if dx = 0 ∧ dy = 0 then 0 else g (y + dy) (x + dx))).sum)).sum

/-- `neighbors2`: radius-2 neighbourhood, bounds-checked, weighted `0.3`. -/
noncomputable def neighbors2 (p : FieldParams) (g : ℤ → ℤ → ℝ) (x y : ℤ) : ℝ :=
  ((intRange (-2) 2).map (fun dy =>
    ((intRange (-2) 2).map (fun dx =>
      if dx = 0 ∧ dy = 0 then 0
      else if 0 ≤ y + dy ∧ y + dy < p.height ∧ 0 ≤ x + dx ∧ x + dx < p.width then
        g (y + dy) (x + dx) * 0.3
      else 0)).sum)).sum

/-- `neighbors3`: pure-diagonal cells at radius ≤ 2, bounds-checked,
weighted `0.5`. -/
noncomputable def neighbors3 (p : FieldParams) (g : ℤ → ℤ → ℝ) (x y : ℤ) : ℝ :=
  ((intRange (-2) 2).map (fun i =>
    ((intRange (-2) 2).map (fun j =>
      if |i| = |j| ∧ i ≠ 0 then
        if 0 ≤ y + i ∧ y + i < p.height ∧ 0 ≤ x + j ∧ x + j < p.width then
          g (y + i) (x + j) * 0.5
        else 0
      else 0)).sum)).sum

/-- `totalNeighbors`: the three sums combined with the chaos level and a
space-dependent sinusoid. -/
noncomputable def totalNeighborsAt (p : FieldParams) (g : ℤ → ℤ → ℝ) (x y : ℤ) : ℝ :=
  neighbors1 g x y + neighbors2 p g x y * p.chaosLevel
    + neighbors3 p g x y * Real.sin (p.time + (x : ℝ) * 0.1)

/-- `ruleSet = (int)(time*2 + x*0.1 + y*0.08) % 6` (C truncating cast and
truncating `%`). -/
noncomputable def ruleSetAt (p : FieldParams) (x y : ℤ) : ℤ :=
  (cppTruncZ (p.time * 2 + (x : ℝ) * 0.1 + (y : ℝ) * 0.08)).tmod 6

/-- The six-way `switch (ruleSet)` over threshold policies; a value outside
`0..5` (possible for a negative truncated float) leaves `newValue = current`. -/
noncomputable def ruleValueAt (p : FieldParams) (rng : ℝ → ℝ → ℝ) (x y : ℤ)
    (current total : ℝ) : ℝ :=
  let rs := ruleSetAt p x y
  if rs = 0 then
    if current > 0.1 then
      if 2 ≤ total ∧ total ≤ 3.5 then current * 1.1 else current * 0.8
    else
      if 2.8 ≤ total ∧ total ≤ 3.2 then rng 0.5 1 else 0
  else if rs = 1 then
    if current > 0.1 then
      if 2 ≤ total ∧ total ≤ 3 then current * 1.05 else current * 0.9
    else
      if 3.5 ≤ total ∧ total ≤ 4 then rng 0.3 0.8 else 0
  else if rs = 2 then
    if 2 ≤ total then rng 0.4 1.2 else current * 0.95
  else if rs = 3 then
    if current > 0.1 then
      if 3 ≤ total ∧ total ≤ 4 then current * 1.2 else current * 0.7
    else
      if 3 ≤ total ∧ total ≤ 4 then rng 0.6 1 else 0
  else if rs = 4 then
    current * 0.9 + (Real.sin (total * 0.5 + p.time) * 0.5 + 0.5) * p.chaosLevel * 0.3
  else if rs = 5 then
    current * 0.8 + rng 0 (total * 0.2 * p.chaosLevel)
  else current

/-- The `switch (fractalType % 9)` dispatch (`%` truncating); an unmatched
value leaves the initialisation `fractalValue = 0`. -/
noncomputable def fractalValueAt (p : FieldParams) (wx wy : ℝ) : ℝ :=
  let t := p.fractalType.tmod 9
  if t = 0 then computeMandelbrot wx wy
  else if t = 1 then computeJulia wx wy (Real.sin (p.time * 0.5)) (Real.cos (p.time * 0.7))
  else if t = 2 then computeBurningShip wx wy
  else if t = 3 then computeTricorn wx wy
  else if t = 4 then computePhoenix wx wy
  else if t = 5 then computeNova wx wy
  else if t = 6 then computePsychedelicWaves wx wy
  else if t = 7 then computeStrangeAttractor wx wy
  else if t = 8 then computeChaosFractal wx wy
  else 0

/-- The attractor-influence loop folded over the attractor list
(`distance` floored by adding `0.001`). -/
noncomputable def attractorAdd (p : FieldParams) (fx fy v : ℝ) : ℝ :=
  p.attractors.foldl (fun acc a =>
    let dx := fx - a.1
    let dy := fy - a.2.1
    let distance := Real.sqrt (dx * dx + dy * dy) + 0.001
    let influence := 1 / distance * 0.1 * p.chaosLevel
    acc + influence * Real.sin (p.time * 3 + distance * 10)) v

/-- The updated x velocity of a cell (exponential decay `0.95` plus a
sinusoidal drive). -/
noncomputable def velXNewAt (p : FieldParams) (g : FieldGrids) (x y : ℤ) : ℝ :=
  g.velX y x * 0.95
    + Real.sin (p.time * 2 + fxAt p x * 5) * Real.cos (p.time * 1.7 + fyAt p y * 4)
      * p.chaosLevel * 0.1

/-- The updated y velocity of a cell. -/
noncomputable def velYNewAt (p : FieldParams) (g : FieldGrids) (x y : ℤ) : ℝ :=
  g.velY y x * 0.95 + Real.cos (p.time * 1.3 + fxAt p x * 3) * p.chaosLevel * 0.1

/-- The cell's tentative new value just before the energy-explosion step:
rule value blended with the fractal sample, plus attractor influence, plus
the velocity-field contribution. -/
noncomputable def newValue4 (p : FieldParams) (rng : ℝ → ℝ → ℝ) (g : FieldGrids)
    (x y : ℤ) : ℝ :=
  let current := g.grid y x
  let total := totalNeighborsAt p g.grid x y
  let nv1 := ruleValueAt p rng x y current total
  let nv2 := nv1 * 0.6 + fractalValueAt p (warpXAt p x y) (warpYAt p x y) * 0.4 * p.chaosLevel
  let nv3 := attractorAdd p (fxAt p x) (fyAt p y) nv2
  nv3 + (velXNewAt p g x y + velYNewAt p g x y) * 0.2

/-- One deposit step of the explosion wave: for offset `(dy, dx)`,
bounds-checked, add `0.3 / dist` at distance `> 0.1`. -/
noncomputable def waveStep (p : FieldParams) (x y dy : ℤ) (e : ℤ → ℤ → ℝ)
    (dx : ℤ) : ℤ → ℤ → ℝ :=
  if 0 ≤ y + dy ∧ y + dy < p.height ∧ 0 ≤ x + dx ∧ x + dx < p.width then
    let dist := Real.sqrt ((dx : ℝ) * (dx : ℝ) + (dy : ℝ) * (dy : ℝ))
    if dist > 0.1 then fupd e (y + dy) (x + dx) (e (y + dy) (x + dx) + 0.3 / dist)
    else e
  else e

/-- The inner `dx` loop of the explosion wave. -/
noncomputable def waveRow (p : FieldParams) (x y : ℤ) (e : ℤ → ℤ → ℝ)
    (dy : ℤ) : ℤ → ℤ → ℝ :=
  (intRange (-3) 3).foldl (waveStep p x y dy) e

/-- The 7×7 energy wave an explosion deposits around its cell
(`0.3 / dist` for every in-bounds cell at distance `> 0.1`). -/
noncomputable def waveFold (p : FieldParams) (x y : ℤ) (e : ℤ → ℤ → ℝ) :
    ℤ → ℤ → ℝ :=
  (intRange (-3) 3).foldl (waveRow p x y) e

/-- The energy value a cell holds right after the accumulation write
`energyGrid[y][x] += abs(newValue - current) * 0.5`. -/
noncomputable def energyAcc (p : FieldParams) (rng : ℝ → ℝ → ℝ) (g : FieldGrids)
    (x y : ℤ) : ℝ :=
  g.energy y x + |newValue4 p rng g x y - g.grid y x| * 0.5

/-- The explosion test `energyGrid[y][x] > randomFloat(0.8, 1.5)`. -/
noncomputable def explodedAt (p : FieldParams) (rng : ℝ → ℝ → ℝ) (g : FieldGrids)
    (x y : ℤ) : Prop :=
  energyAcc p rng g x y > rng 0.8 1.5

noncomputable instance (p : FieldParams) (rng : ℝ → ℝ → ℝ) (g : FieldGrids)
    (x y : ℤ) : Decidable (explodedAt p rng g x y) :=
  inferInstanceAs (Decidable (_ > _))

/-- The cell's value after the explosion boost (if any). -/
noncomputable def newValue5 (p : FieldParams) (rng : ℝ → ℝ → ℝ) (g : FieldGrids)
    (x y : ℤ) : ℝ :=
  if explodedAt p rng g x y then newValue4 p rng g x y + rng 0.5 1.0
  else newValue4 p rng g x y

/-- The cell's energy grid after the explosion step: the accumulation write,
then (on explosion) the reset to `0` and the 7×7 wave deposit. -/
noncomputable def cellEnergy (p : FieldParams) (rng : ℝ → ℝ → ℝ) (g : FieldGrids)
    (x y : ℤ) : ℤ → ℤ → ℝ :=
  let energy1 := fupd g.energy y x (energyAcc p rng g x y)
  if explodedAt p rng g x y then waveFold p x y (fupd energy1 y x 0) else energy1

/-- The cell's updated trail value
`max(trail * 0.92, newValue * 0.3)` (using the post-explosion value). -/
noncomputable def trailNewAt (p : FieldParams) (rng : ℝ → ℝ → ℝ) (g : FieldGrids)
    (x y : ℤ) : ℝ :=
  max (g.trail y x * 0.92) (newValue5 p rng g x y * 0.3)

/-- The value finally written to `nextGrid`: clamp to `[0,2]`, then the
2%·chaos noise kick. -/
noncomputable def newValue7 (p : FieldParams) (rng : ℝ → ℝ → ℝ) (g : FieldGrids)
    (x y : ℤ) : ℝ :=
  let nv3 := max 0 (min 2 (newValue5 p rng g x y))
  if rng 0 1 < 0.02 * p.chaosLevel then nv3 + rng (-0.5) 0.5 else nv3

/-- One cell's evaluation inside the `update` double loop: rule/fractal value,
velocity write, energy accumulation with explosion and wave, trail update,
clamp to `[0,2]`, chaos noise, write to the next grid, and the HSV colour
write.  Only `next`, `energy`, `velX`, `velY`, `trail` and `color` are
written; `grid` is read-only during a pass. -/
noncomputable def cellStep (p : FieldParams) (rng : ℝ → ℝ → ℝ) (g : FieldGrids)
    (q : ℤ × ℤ) : FieldGrids :=
  let x := q.1
  let y := q.2
  let intensity := newValue7 p rng g x y + trailNewAt p rng g x y
  let hue := cppFmod
    (intensity * 180 + p.colorShift + fxAt p x * 50 + fyAt p y * 30 + p.time * 100) 360
  let saturation := 0.8 + Real.sin (p.time * 3 + intensity * 5) * 0.2
  let brightness := min 1 (intensity * (0.5 + Real.sin (p.time * 4) * 0.3))
  let hue2 := if p.isTripping then hue + Real.sin (p.time * 10 + (x : ℝ) * 0.2) * 60 else hue
  let sat2 := if p.isTripping then 1 else saturation
  let bright2 :=
    if p.isTripping then brightness * (0.7 + Real.sin (p.time * 15 + (y : ℝ) * 0.3) * 0.3)
    else brightness
  { grid := g.grid
    next := fupd g.next y x (newValue7 p rng g x y)
    energy := cellEnergy p rng g x y
    velX := fupd g.velX y x (velXNewAt p g x y)
    velY := fupd g.velY y x (velYNewAt p g x y)
    trail := fupd g.trail y x (trailNewAt p rng g x y)
    color := fupd g.color y x (hsvToRgb hue2 sat2 bright2) }

/-- A pass over an arbitrary cell enumeration. -/
noncomputable def passWithOrder (p : FieldParams) (rng : ℝ → ℝ → ℝ)
    (g : FieldGrids) (order : List (ℤ × ℤ)) : FieldGrids :=
  order.foldl (cellStep p rng) g

/-- The source's row-major interior enumeration
(`for y = 1 .. height-2 { for x = 1 .. width-2 }`). -/
def interiorCells (w h : ℤ) : List (ℤ × ℤ) :=
  (intRange 1 (h - 2)).foldl
    (fun acc y => acc ++ (intRange 1 (w - 2)).map (fun x => (x, y))) []

/-- The full per-tick grid pass of `update`, in source order. -/
noncomputable def updatePass (p : FieldParams) (rng : ℝ → ℝ → ℝ)
    (g : FieldGrids) : FieldGrids :=
  passWithOrder p rng g (interiorCells p.width p.height)

/-- The `grid.swap(nextGrid)` double-buffer swap performed after the pass. -/
def gridSwap (g : FieldGrids) : FieldGrids :=
  { g with grid := g.next, next := g.grid }

/-! ## Field engine storage model (`fractal_system.cpp`: constructor,
`initialize`, `resize`, `getCurrentModeName`)

Here the grids are `List (List _)`, mirroring
`std::vector<std::vector<float>>`, because `std::vector::resize(n, fill)`
semantics (truncate or append whole rows, never touching kept rows) are what
the resize claim is about.  Width and height are `ℕ` (the C++ `int` fields
are nonnegative in every use). -/

/-- `std::vector::resize(n, fill)`: keep the first `n` elements, append
copies of `fill` if the vector was shorter.  Existing elements are never
modified. -/
def vecResize {α : Type} (v : List α) (n : ℕ) (fill : α) : List α :=
  v.take n ++ List.replicate (n - v.length) fill

/-- Write `g[y][x] = v` in a nested list (no-op out of bounds; the source
only performs in-bounds writes except for the resize-growth bug discussed at
the resize claim). -/
def set2 {α : Type} (g : List (List α)) (y x : ℕ) (v : α) : List (List α) :=
  g.set y ((g[y]?.getD []).set x v)

structure FieldStore where
  width : ℕ
  height : ℕ
  grid : List (List ℝ)
  nextGrid : List (List ℝ)
  energyGrid : List (List ℝ)
  velocityX : List (List ℝ)
  velocityY : List (List ℝ)
  colorGrid : List (List ℕ)
  trailGrid : List (List ℝ)
  time : ℝ
  fractalType : ℤ
  zoomLevel : ℝ
  centerX : ℝ
  centerY : ℝ
  centerZ : ℝ
  warpIntensity : ℝ
  colorShift : ℝ
  pulseSpeed : ℝ
  chaosLevel : ℝ
  isTripping : Bool
  attractors : List (ℝ × ℝ × ℝ)

/-- `FractalGameOfLifeSystem::initialize`: seed `grid`/`energyGrid`/
`trailGrid` cell by cell, then re-randomize the mood parameters and rebuild
the attractor list.  (`nextGrid`, `velocityX/Y` and `colorGrid` are *not*
touched.) -/
noncomputable def FieldStore.initialize (rng : ℝ → ℝ → ℝ) (rngInt : ℤ → ℤ → ℤ)
    (st : FieldStore) : FieldStore :=
  let st1 := (List.range st.height).foldl (fun (s : FieldStore) (y : ℕ) =>
    (List.range st.width).foldl (fun (s : FieldStore) (x : ℕ) =>
      let noise1 := Real.sin ((x : ℝ) * 0.1) * Real.cos ((y : ℝ) * 0.08)
      let noise2 := Real.sin ((x : ℝ) * 0.03 + (y : ℝ) * 0.05) * 0.5
      { s with
        grid := set2 s.grid y x
          (if noise1 + noise2 + rng (-0.5) 0.5 > 0 then rng 0.3 1 else 0)
        energyGrid := set2 s.energyGrid y x (rng 0 0.5)
        trailGrid := set2 s.trailGrid y x 0 }) s) st
  { st1 with
    fractalType := rngInt 0 8
    zoomLevel := rng 0.05 5
    centerX := rng (-3) 3
    centerY := rng (-3) 3
    centerZ := 0
    warpIntensity := rng 0.5 3
    pulseSpeed := rng 0.5 3
    chaosLevel := rng 0.2 1
    attractors := (List.range (rngInt 2 6).toNat).map
      (fun _ => (rng (-2) 2, rng (-2) 2, rng (-1) 1)) }

/-- The `FractalGameOfLifeSystem(w, h)` constructor: allocate all seven
grids at `h` rows × `w` columns (colors `0xFF000000`), then `initialize`. -/
noncomputable def FieldStore.construct (rng : ℝ → ℝ → ℝ) (rngInt : ℤ → ℤ → ℤ)
    (w h : ℕ) : FieldStore :=
  FieldStore.initialize rng rngInt
    { width := w, height := h
      grid := List.replicate h (List.replicate w 0)
      nextGrid := List.replicate h (List.replicate w 0)
      energyGrid := List.replicate h (List.replicate w 0)
      velocityX := List.replicate h (List.replicate w 0)
      velocityY := List.replicate h (List.replicate w 0)
      colorGrid := List.replicate h (List.replicate w 0xFF000000)
      trailGrid := List.replicate h (List.replicate w 0)
      time := 0, fractalType := 0, zoomLevel := 1
      centerX := 0, centerY := 0, centerZ := 0
      warpIntensity := 1, colorShift := 0, pulseSpeed := 1, chaosLevel := 0.5
      isTripping := false, attractors := [] }

/-- `FractalGameOfLifeSystem::resize`: set the new dimensions, call
`std::vector::resize(newHeight, row-of-newWidth)` on every grid, then
`initialize`. -/
noncomputable def FieldStore.resize (rng : ℝ → ℝ → ℝ) (rngInt : ℤ → ℤ → ℤ)
    (st : FieldStore) (newWidth newHeight : ℕ) : FieldStore :=
  FieldStore.initialize rng rngInt
    { st with
      width := newWidth, height := newHeight
      grid := vecResize st.grid newHeight (List.replicate newWidth 0)
      nextGrid := vecResize st.nextGrid newHeight (List.replicate newWidth 0)
      energyGrid := vecResize st.energyGrid newHeight (List.replicate newWidth 0)
      velocityX := vecResize st.velocityX newHeight (List.replicate newWidth 0)
      velocityY := vecResize st.velocityY newHeight (List.replicate newWidth 0)
      colorGrid := vecResize st.colorGrid newHeight (List.replicate newWidth 0xFF000000)
      trailGrid := vecResize st.trailGrid newHeight (List.replicate newWidth 0) }

/-- `FractalGameOfLifeSystem::getCurrentModeName`: the `switch (fractalType)`
label table (nine named cases, default `"Unknown"`). -/
def getCurrentModeName (fractalType : ℤ) : String :=
  if fractalType = 0 then "Hallucinogenic Game of Life"
  else if fractalType = 1 then "Psychedelic Mandelbrot"
  else if fractalType = 2 then "Trippy Julia Set"
  else if fractalType = 3 then "Warping Cellular Automata"
  else if fractalType = 4 then "Fractal Fluid Dynamics"
  else if fractalType = 5 then "Lorenz Attractor"
  else if fractalType = 6 then "Psychedelic Wave"
  else if fractalType = 7 then "Chaos Field"
  else if fractalType = 8 then "Quantum Fractal"
  else "Unknown"

/-- `FractalGameOfLifeSystem::render`: copy the colour grid into the pixel
buffer, clipped to the smaller of the two dimensions in each axis. -/
def FieldStore.render (st : FieldStore) (b : PixelBuffer) : PixelBuffer :=
  (List.range st.colorGrid.length).foldl (fun (b : PixelBuffer) (y : ℕ) =>
    if ((y : ℤ)) < b.height then
      (List.range (st.colorGrid[y]?.getD []).length).foldl
        (fun (b : PixelBuffer) (x : ℕ) =>
          if ((x : ℤ)) < b.width then
            b.setPixel (x : ℤ) (y : ℤ) ((st.colorGrid[y]?.getD [])[x]?.getD 0)
          else b) b
    else b) b

/-! ## Weird entities (`weird_entities.cpp`)

`Vec3` fields are flattened to scalar components; the random generator is the
same oracle pair as elsewhere. -/

structure WeirdEntity where
  posX : ℝ
  posY : ℝ
  posZ : ℝ
  velX : ℝ
  velY : ℝ
  velZ : ℝ
  sizeX : ℝ
  sizeY : ℝ
  sizeZ : ℝ
  rotation : ℝ
  rotationSpeed : ℝ
  life : ℝ
  maxLife : ℝ
  morphTime : ℝ
  type : ℤ
  colors : List ℕ

/-- `randomColor()`: opaque random RGB. -/
def randomColor (rngInt : ℤ → ℤ → ℤ) : ℕ :=
  0xFF000000 ||| ((rngInt 0 255).toNat <<< 16) ||| ((rngInt 0 255).toNat <<< 8)
    ||| (rngInt 0 255).toNat

/-- The `WeirdEntity(Vec3 pos)` constructor: randomized velocity, size,
rotation, lifetime (`life = maxLife ∈ [5,15]`), type `0..6` and a palette of
3–6 random colors. -/
noncomputable def WeirdEntity.construct (rng : ℝ → ℝ → ℝ) (rngInt : ℤ → ℤ → ℤ)
    (px py pz : ℝ) : WeirdEntity :=
  let m := rng 5 15
  { posX := px, posY := py, posZ := pz
    velX := rng (-2) 2, velY := rng (-2) 2, velZ := rng (-1) 1
    sizeX := rng 0.1 0.8, sizeY := rng 0.1 0.8, sizeZ := rng 0.1 0.8
    rotation := rng 0 (2 * Real.pi), rotationSpeed := rng (-3) 3
    life := m, maxLife := m, morphTime := 0
    type := rngInt 0 6
    colors := (List.range (rngInt 3 6).toNat).map (fun _ => randomColor rngInt) }

/-- The 1%-probability "weird physics" event of `WeirdEntity::update`:
bounce, random teleport, speed-up, or change of direction. -/
noncomputable def entityChaosEvent (rng : ℝ → ℝ → ℝ) (rngInt : ℤ → ℤ → ℤ)
    (e : WeirdEntity) : WeirdEntity :=
  if rng 0 1 < 0.01 then
    let k := rngInt 0 3
    if k = 0 then { e with velX := e.velX * (-1.2), velY := e.velY * (-1.2) }
    else if k = 1 then { e with posX := rng (-3) 3, posY := rng (-2) 2 }
    else if k = 2 then
      let s := rng 1.5 2
      { e with velX := e.velX * s, velY := e.velY * s, velZ := e.velZ * s }
    else if k = 3 then
      { e with velX := rng (-3) 3, velY := rng (-3) 3, velZ := rng (-1) 1 }
    else e
  else e

/-- The screen-wraparound step of `WeirdEntity::update` (four sequential
`if`s at bounds `±4` / `±3`). -/
noncomputable def entityWrap (e0 : WeirdEntity) : WeirdEntity :=
  let e := if e0.posX > (4 : ℝ) then { e0 with posX := -4 } else e0
  let e := if e.posX < (-4 : ℝ) then { e with posX := 4 } else e
  let e := if e.posY > (3 : ℝ) then { e with posY := -3 } else e
  if e.posY < (-3 : ℝ) then { e with posY := 3 } else e

set_option linter.unusedVariables false in
/-- `WeirdEntity::update`: tick down `life`, advance `morphTime`, integrate
position, the 1%-probability chaos event, screen wraparound, rotation
integration, and breathing-size modulation.  The two unused screen-dimension
parameters of the source signature are kept. -/
noncomputable def WeirdEntity.update (rng : ℝ → ℝ → ℝ) (rngInt : ℤ → ℤ → ℤ)
    (dt : ℝ) (screenWidth screenHeight : ℤ) (e0 : WeirdEntity) : WeirdEntity :=
  let e := { e0 with life := e0.life - dt, morphTime := e0.morphTime + dt }
  let e := { e with
    posX := e.posX + e.velX * dt
    posY := e.posY + e.velY * dt
    posZ := e.posZ + e.velZ * dt }
  let e := entityChaosEvent rng rngInt e
  let e := entityWrap e
  let e := { e with rotation := e.rotation + e.rotationSpeed * dt }
  let morphFactor := Real.sin (e.morphTime * rng 1 3) * 0.3 + 1
  { e with
    sizeX := e.sizeX * morphFactor
    sizeY := e.sizeY * morphFactor
    sizeZ := e.sizeZ * morphFactor }

/-- `WeirdEntity::isDead`: `life <= 0`. -/
def WeirdEntity.isDead (e : WeirdEntity) : Prop :=
  e.life ≤ 0

noncomputable instance (e : WeirdEntity) : Decidable e.isDead :=
  inferInstanceAs (Decidable (e.life ≤ 0))

structure WeirdVisualManager where
  entities : List WeirdEntity
  spawnTimer : ℝ
  spawnInterval : ℝ
  maxEntities : ℤ

/-- `WeirdVisualManager::update`: tick every entity (screen 800×600), erase
the dead ones, maybe spawn (timer elapsed and population below cap), and with
1% probability re-roll the population cap. -/
noncomputable def WeirdVisualManager.update (rng : ℝ → ℝ → ℝ)
    (rngInt : ℤ → ℤ → ℤ) (dt : ℝ) (m : WeirdVisualManager) : WeirdVisualManager :=
  let entities1 := m.entities.map (WeirdEntity.update rng rngInt dt 800 600)
  let entities2 := entities1.filter (fun e => decide (¬ e.isDead))
  let spawnTimer1 := m.spawnTimer + dt
  let m1 :=
    if spawnTimer1 ≥ m.spawnInterval ∧ (entities2.length : ℤ) < m.maxEntities then
      { m with
        entities := entities2 ++
          [WeirdEntity.construct rng rngInt (rng (-3) 3) (rng (-2) 2) (rng (-6) (-2))]
        spawnTimer := 0
        spawnInterval := rng 0.3 2.5 }
    else { m with entities := entities2, spawnTimer := spawnTimer1 }
  if rng 0 1 < 0.01 then { m1 with maxEntities := rngInt 5 25 } else m1

/-! ## Shared oracles and helper lemmas -/

/-- Midpoint random oracle: `randomFloat(a,b)` deterministically returns the
middle of the range. -/
noncomputable def rngMid : ℝ → ℝ → ℝ := fun a b => (a + b) / 2

/-- Low-end integer random oracle: `randomInt(a,b)` returns `a`. -/
def rngIntLo : ℤ → ℤ → ℤ := fun a _ => a

theorem foldl_preserve {α β : Type} (P : β → Prop) (f : β → α → β)
    (h : ∀ b a, P b → P (f b a)) :
    ∀ (l : List α) (b : β), P b → P (l.foldl f b) := by
  intro l
  induction l with
  | nil => intro b hb; exact hb
  | cons a t ih => intro b hb; exact ih (f b a) (h b a hb)

/-! ## C8: out-of-bounds pixel access -/

/-- C8: for every coordinate outside `[0,width) × [0,height)` and every
color, `setPixel` leaves the buffer unchanged and `getPixel` returns `0`;
neither raises an error. -/
theorem setPixel_getPixel_out_of_bounds (b : PixelBuffer) (x y : ℤ) (c : ℕ)
    (h : ¬(0 ≤ x ∧ x < b.width ∧ 0 ≤ y ∧ y < b.height)) :
    b.setPixel x y c = b ∧ b.getPixel x y = 0 := by
  constructor
  · unfold PixelBuffer.setPixel
    rw [if_neg h]
  · unfold PixelBuffer.getPixel
    rw [if_neg h]

/-- Witness for C8 at a concrete buffer and the out-of-bounds point
`(-1, 0)`. -/
theorem setPixel_getPixel_out_of_bounds_witness :
    (PixelBuffer.mk 4 4 (fun _ _ => 9)).setPixel (-1) 0 7
        = PixelBuffer.mk 4 4 (fun _ _ => 9) ∧
      (PixelBuffer.mk 4 4 (fun _ _ => 9)).getPixel (-1) 0 = 0 :=
  setPixel_getPixel_out_of_bounds (PixelBuffer.mk 4 4 (fun _ _ => 9)) (-1) 0 7
    (by norm_num)

/-! ## C9: in-bounds set/get round-trip -/

/-- C9: for every in-bounds coordinate and every 32-bit color, `getPixel`
immediately after `setPixel` at the same coordinate returns exactly the
color written. -/
theorem setPixel_getPixel_roundtrip (b : PixelBuffer) (x y : ℤ) (c : ℕ)
    (hin : 0 ≤ x ∧ x < b.width ∧ 0 ≤ y ∧ y < b.height) (hc : c < 2 ^ 32) :
    (b.setPixel x y c).getPixel x y = c := by
  unfold PixelBuffer.setPixel PixelBuffer.getPixel
  rw [if_pos hin]
  simp only []
  rw [if_pos hin]
  simp

/-- Witness for C9 at a concrete buffer, coordinate and color. -/
theorem setPixel_getPixel_roundtrip_witness :
    ((PixelBuffer.mk 4 4 (fun _ _ => 9)).setPixel 2 3 0xFF123456).getPixel 2 3
      = 0xFF123456 :=
  setPixel_getPixel_roundtrip (PixelBuffer.mk 4 4 (fun _ _ => 9)) 2 3 0xFF123456
    (by norm_num) (by norm_num)

/-! ## C7: degenerate triangles in the barycentric fill -/

/-- C7: for every triangle with three colinear vertices and every color,
`fillTriangleBarycentric` draws nothing: the buffer is unchanged. -/
theorem fillTriangleBarycentric_colinear (b : PixelBuffer)
    (x0 y0 x1 y1 x2 y2 : ℤ) (c : ℕ)
    (hcol : (x1 - x0) * (y2 - y0) = (x2 - x0) * (y1 - y0)) :
    fillTriangleBarycentric b x0 y0 x1 y1 x2 y2 c = b := by
  have harea : sign2 x0 y0 x1 y1 x2 y2 = 0 := by
    unfold sign2
    rw [Int.cast_eq_zero]
    linear_combination hcol
  unfold fillTriangleBarycentric
  rw [harea]
  norm_num

/-- Witness for C7 on the colinear triangle `(0,0),(5,5),(10,10)`. -/
theorem fillTriangleBarycentric_colinear_witness :
    fillTriangleBarycentric (PixelBuffer.mk 16 16 (fun _ _ => 0)) 0 0 5 5 10 10 7
      = PixelBuffer.mk 16 16 (fun _ _ => 0) :=
  fillTriangleBarycentric_colinear (PixelBuffer.mk 16 16 (fun _ _ => 0))
    0 0 5 5 10 10 7 (by norm_num)

/-! ## C4: fractal mode names -/

/-- Counterexample to C4: the label table names only nine variants, not 13 —
every `fractalType` from 9 to 12 already falls through to `"Unknown"`, and of
the 13 values `0..12` exactly 9 have a name. -/
theorem getCurrentModeName_not_thirteen :
    getCurrentModeName 9 = "Unknown" ∧ getCurrentModeName 10 = "Unknown" ∧
      getCurrentModeName 11 = "Unknown" ∧ getCurrentModeName 12 = "Unknown" ∧
      (List.range 13).countP
        (fun n => !(getCurrentModeName (n : ℤ) == "Unknown")) = 9 := by
  decide

/-- C4 (amended): `getCurrentModeName` is a pure label table with nine named
variants for `fractalType = 0..8` and the default `"Unknown"` for every value
outside that range. -/
theorem getCurrentModeName_unknown_iff (n : ℤ) :
    getCurrentModeName n = "Unknown" ↔ n < 0 ∨ 8 < n := by
  unfold getCurrentModeName
  split_ifs <;>
    first
      | exact iff_of_false (by decide) (by omega)
      | exact iff_of_true rfl (by omega)

/-! ## C1: resize and grid shapes -/

theorem map_length_set2 {α : Type} :
    ∀ (g : List (List α)) (y x : ℕ) (v : α),
      (set2 g y x v).map List.length = g.map List.length := by
  intro g
  induction g with
  | nil => intro y x v; cases y <;> rfl
  | cons r t ih =>
    intro y x v
    cases y with
    | zero => simp [set2]
    | succ n =>
      have := ih n x v
      simp only [set2] at this ⊢
      simpa using this

/-- Shape invariant of `FieldStore.initialize`: cell writes never change any
row's length, and the grids not written are untouched. -/
theorem initialize_shapes (rng : ℝ → ℝ → ℝ) (rngInt : ℤ → ℤ → ℤ)
    (st : FieldStore) :
    ( FieldStore.initialize rng rngInt st).grid.map List.length
        = st.grid.map List.length ∧
      ( FieldStore.initialize rng rngInt st).nextGrid = st.nextGrid ∧
      ( FieldStore.initialize rng rngInt st).energyGrid.map List.length
        = st.energyGrid.map List.length ∧
      ( FieldStore.initialize rng rngInt st).velocityX = st.velocityX ∧
      ( FieldStore.initialize rng rngInt st).velocityY = st.velocityY ∧
      ( FieldStore.initialize rng rngInt st).colorGrid = st.colorGrid ∧
      ( FieldStore.initialize rng rngInt st).trailGrid.map List.length
        = st.trailGrid.map List.length := by
  have main :
      ∀ (l : List ℕ) (f : FieldStore → ℕ → FieldStore)
        (hf : ∀ s a,
          ((f s a).grid.map List.length = s.grid.map List.length ∧
            (f s a).nextGrid = s.nextGrid ∧
            (f s a).energyGrid.map List.length = s.energyGrid.map List.length ∧
            (f s a).velocityX = s.velocityX ∧
            (f s a).velocityY = s.velocityY ∧
            (f s a).colorGrid = s.colorGrid ∧
            (f s a).trailGrid.map List.length = s.trailGrid.map List.length))
        (s : FieldStore),
        ((l.foldl f s).grid.map List.length = s.grid.map List.length ∧
          (l.foldl f s).nextGrid = s.nextGrid ∧
          (l.foldl f s).energyGrid.map List.length
            = s.energyGrid.map List.length ∧
          (l.foldl f s).velocityX = s.velocityX ∧
          (l.foldl f s).velocityY = s.velocityY ∧
          (l.foldl f s).colorGrid = s.colorGrid ∧
          (l.foldl f s).trailGrid.map List.length
            = s.trailGrid.map List.length) := by
    intro l
    induction l with
    | nil => intro f hf s; exact ⟨rfl, rfl, rfl, rfl, rfl, rfl, rfl⟩
    | cons a t ih =>
      intro f hf s
      have h1 := hf s a
      have h2 := ih f hf (f s a)
      refine ⟨?_, ?_, ?_, ?_, ?_, ?_, ?_⟩ <;>
        simp only [List.foldl_cons] <;>
        first
          | exact h2.1.trans h1.1
          | exact h2.2.1.trans h1.2.1
          | exact h2.2.2.1.trans h1.2.2.1
          | exact h2.2.2.2.1.trans h1.2.2.2.1
          | exact h2.2.2.2.2.1.trans h1.2.2.2.2.1
          | exact h2.2.2.2.2.2.1.trans h1.2.2.2.2.2.1
          | exact h2.2.2.2.2.2.2.trans h1.2.2.2.2.2.2
  unfold FieldStore.initialize
  simp only []
  refine main _ _ (fun s y => main _ _ (fun s x => ?_) s) st
  exact ⟨map_length_set2 .., rfl, map_length_set2 .., rfl, rfl, rfl,
    map_length_set2 ..⟩

/-- C1 (code bug evaluation): constructing a 4×4 field engine and calling
`resize(3, 4)` leaves every value-grid row at its old length 4 (16 cells in
total), although the declared width is now 3 — `std::vector::resize` never
reshapes the rows that are kept, so grid dimensions do not match the declared
`width`/`height` and stale cells survive the resize (and a *grown* width
would make `initialize` write out of bounds). -/
theorem resize_keeps_stale_row_widths :
    (FieldStore.resize rngMid rngIntLo
        (FieldStore.construct rngMid rngIntLo 4 4) 3 4).width = 3 ∧
      (FieldStore.resize rngMid rngIntLo
        (FieldStore.construct rngMid rngIntLo 4 4) 3 4).grid.map List.length
        = [4, 4, 4, 4] := by
  have h2 : (FieldStore.construct rngMid rngIntLo 4 4).grid.map List.length
      = [4, 4, 4, 4] := by
    unfold FieldStore.construct
    rw [(initialize_shapes rngMid rngIntLo _).1]
    rfl
  have h3 : (FieldStore.construct rngMid rngIntLo 4 4).grid.length = 4 := by
    have := congrArg List.length h2
    simpa using this
  constructor
  · rfl
  · have h1 : (FieldStore.resize rngMid rngIntLo
        (FieldStore.construct rngMid rngIntLo 4 4) 3 4).grid.map List.length
        = (vecResize (FieldStore.construct rngMid rngIntLo 4 4).grid 4
            (List.replicate 3 0)).map List.length := by
      unfold FieldStore.resize
      exact (initialize_shapes rngMid rngIntLo _).1
    rw [h1]
    unfold vecResize
    rw [h3]
    simp only [Nat.sub_self, List.replicate_zero, List.append_nil]
    rw [List.take_of_length_le (le_of_eq h3)]
    exact h2

/-! ## C3: fractal intensity ranges -/

theorem mandelIter_mem (cx cy : ℝ) :
    ∀ (fuel i : ℕ) (zx zy : ℝ), i + fuel ≤ 25 →
      mandelIter cx cy fuel i zx zy ∈ Set.Icc (0 : ℝ) 1 := by
  intro fuel
  induction fuel with
  | zero => intro i zx zy _; exact ⟨by norm_num [mandelIter], by norm_num [mandelIter]⟩
  | succ n ih =>
    intro i zx zy h
    unfold mandelIter
    split_ifs
    · refine ⟨by positivity, ?_⟩
      rw [div_le_one (by norm_num)]
      have hi : i ≤ 25 := by omega
      exact_mod_cast hi
    · exact ih (i + 1) _ _ (by omega)

theorem juliaIter_mem (cx cy : ℝ) :
    ∀ (fuel i : ℕ) (zx zy : ℝ), i + fuel ≤ 25 →
      juliaIter cx cy fuel i zx zy ∈ Set.Icc (0 : ℝ) 1 := by
  intro fuel
  induction fuel with
  | zero => intro i zx zy _; exact ⟨by norm_num [juliaIter], by norm_num [juliaIter]⟩
  | succ n ih =>
    intro i zx zy h
    unfold juliaIter
    split_ifs
    · refine ⟨by positivity, ?_⟩
      rw [div_le_one (by norm_num)]
      have hi : i ≤ 25 := by omega
      exact_mod_cast hi
    · exact ih (i + 1) _ _ (by omega)

theorem burningShipIter_mem (cx cy : ℝ) :
    ∀ (fuel i : ℕ) (zx zy : ℝ), i + fuel ≤ 20 →
      burningShipIter cx cy fuel i zx zy ∈ Set.Icc (0 : ℝ) 1 := by
  intro fuel
  induction fuel with
  | zero =>
    intro i zx zy _
    exact ⟨by norm_num [burningShipIter], by norm_num [burningShipIter]⟩
  | succ n ih =>
    intro i zx zy h
    unfold burningShipIter
    split_ifs
    · refine ⟨by positivity, ?_⟩
      rw [div_le_one (by norm_num)]
      have hi : i ≤ 20 := by omega
      exact_mod_cast hi
    · exact ih (i + 1) _ _ (by omega)

theorem tricornIter_mem (cx cy : ℝ) :
    ∀ (fuel i : ℕ) (zx zy : ℝ), i + fuel ≤ 50 →
      tricornIter cx cy fuel i zx zy ∈ Set.Icc (0 : ℝ) 1 := by
  intro fuel
  induction fuel with
  | zero => intro i zx zy _; exact ⟨by norm_num [tricornIter], by norm_num [tricornIter]⟩
  | succ n ih =>
    intro i zx zy h
    unfold tricornIter
    split_ifs
    · refine ⟨by positivity, ?_⟩
      rw [div_le_one (by norm_num)]
      have hi : i ≤ 50 := by omega
      exact_mod_cast hi
    · exact ih (i + 1) _ _ (by omega)

theorem phoenixIter_mem (cx cy : ℝ) :
    ∀ (fuel i : ℕ) (zx zy px py : ℝ), i + fuel ≤ 50 →
      phoenixIter cx cy fuel i zx zy px py ∈ Set.Icc (0 : ℝ) 1 := by
  intro fuel
  induction fuel with
  | zero =>
    intro i zx zy px py _
    exact ⟨by norm_num [phoenixIter], by norm_num [phoenixIter]⟩
  | succ n ih =>
    intro i zx zy px py h
    unfold phoenixIter
    split_ifs
    · refine ⟨by positivity, ?_⟩
      rw [div_le_one (by norm_num)]
      have hi : i ≤ 50 := by omega
      exact_mod_cast hi
    · exact ih (i + 1) _ _ _ _ (by omega)

theorem novaIter_mem :
    ∀ (fuel i : ℕ) (zx zy : ℝ), i + fuel ≤ 50 →
      novaIter fuel i zx zy ∈ Set.Icc (0 : ℝ) 1 := by
  intro fuel
  induction fuel with
  | zero => intro i zx zy _; exact ⟨by norm_num [novaIter], by norm_num [novaIter]⟩
  | succ n ih =>
    intro i zx zy h
    unfold novaIter
    dsimp only
    split_ifs
    · refine ⟨by positivity, ?_⟩
      rw [div_le_one (by norm_num)]
      have hi : i ≤ 50 := by omega
      exact_mod_cast hi
    · refine ⟨by positivity, ?_⟩
      rw [div_le_one (by norm_num)]
      have hi : i ≤ 50 := by omega
      exact_mod_cast hi
    · exact ih (i + 1) _ _ (by omega)

theorem cppFmod_one_mem {a : ℝ} (ha : 0 ≤ a) :
    cppFmod a 1 ∈ Set.Ico (0 : ℝ) 1 := by
  unfold cppFmod cppTruncZ
  rw [div_one, if_pos ha, one_mul]
  have h1 : (0 : ℝ) ≤ a - ⌊a⌋ := by
    rw [Int.self_sub_floor]
    exact Int.fract_nonneg a
  have h2 : a - (⌊a⌋ : ℝ) < 1 := by
    rw [Int.self_sub_floor]
    exact Int.fract_lt_one a
  exact ⟨h1, h2⟩

theorem computeStrangeAttractor_mem (x y : ℝ) :
    computeStrangeAttractor x y ∈ Set.Icc (0 : ℝ) 1 := by
  unfold computeStrangeAttractor
  have h := cppFmod_one_mem
    (Real.sqrt_nonneg ((henonIter 10 (x, y)).1 * (henonIter 10 (x, y)).1
      + (henonIter 10 (x, y)).2 * (henonIter 10 (x, y)).2))
  exact ⟨h.1, le_of_lt h.2⟩

theorem computeChaosFractal_mem (x y : ℝ) :
    computeChaosFractal x y ∈ Set.Icc (0 : ℝ) 1 := by
  unfold computeChaosFractal
  have h := cppFmod_one_mem (abs_nonneg
    ((List.range 5).foldl
      (fun acc i =>
        acc + Real.sin (x * ((i : ℝ) + 1) * 2) * Real.cos (y * ((i : ℝ) + 1) * 1.5)
          / ((i : ℝ) + 1)) 0))
  exact ⟨h.1, le_of_lt h.2⟩

theorem computePsychedelicWaves_mem (x y : ℝ) :
    computePsychedelicWaves x y ∈ Set.Icc (-1 : ℝ) 2 := by
  unfold computePsychedelicWaves
  have h1 : |Real.sin (x * 5) * Real.cos (y * 3)| ≤ 1 := by
    rw [abs_mul]
    exact mul_le_one₀ (Real.abs_sin_le_one _) (abs_nonneg _) (Real.abs_cos_le_one _)
  have h1' := abs_le.mp h1
  have h2 := Real.neg_one_le_sin (x * y * 2)
  have h2' := Real.sin_le_one (x * y * 2)
  have h3 := Real.neg_one_le_cos (x + y)
  have h3' := Real.cos_le_one (x + y)
  constructor <;> nlinarith

/-- Counterexample to C3: `computePsychedelicWaves` leaves `[0,1]` — at the
point `(0.2, 0)` its value is `(sin 1 + cos 0.2)/2 + 1/2 > 1`. -/
theorem computePsychedelicWaves_exceeds_one :
    1 < computePsychedelicWaves (1 / 5) 0 := by
  unfold computePsychedelicWaves
  have e1 : (1 / 5 : ℝ) * 5 = 1 := by norm_num
  have e2 : (0 : ℝ) * 3 = 0 := by norm_num
  have e3 : (1 / 5 : ℝ) * 0 * 2 = 0 := by norm_num
  have e4 : (1 / 5 : ℝ) + 0 = 1 / 5 := by norm_num
  rw [e1, e2, e3, e4, Real.cos_zero, Real.sin_zero]
  have hs : (3 : ℝ) / 4 < Real.sin 1 := by
    have h := Real.sin_gt_sub_cube (by norm_num : (0 : ℝ) < 1) le_rfl
    nlinarith
  have hc : 1 - (1 / 5 : ℝ) ^ 2 / 2 ≤ Real.cos (1 / 5) :=
    Real.one_sub_sq_div_two_le_cos
  nlinarith

/-- C3 (amended): eight of the nine fractal functions return an intensity in
`[0,1]` for every input point; the exception is `computePsychedelicWaves`,
whose closed-form trig sum only satisfies the bound `[-1,2]` and can exceed
`1`. -/
theorem fractal_intensity_ranges (x y cx cy : ℝ) :
    computeMandelbrot x y ∈ Set.Icc (0 : ℝ) 1 ∧
      computeJulia x y cx cy ∈ Set.Icc (0 : ℝ) 1 ∧
      computeBurningShip x y ∈ Set.Icc (0 : ℝ) 1 ∧
      computeTricorn x y ∈ Set.Icc (0 : ℝ) 1 ∧
      computePhoenix x y ∈ Set.Icc (0 : ℝ) 1 ∧
      computeNova x y ∈ Set.Icc (0 : ℝ) 1 ∧
      computeStrangeAttractor x y ∈ Set.Icc (0 : ℝ) 1 ∧
      computeChaosFractal x y ∈ Set.Icc (0 : ℝ) 1 ∧
      computePsychedelicWaves x y ∈ Set.Icc (-1 : ℝ) 2 :=
  ⟨mandelIter_mem x y 25 0 0 0 (by norm_num),
    juliaIter_mem cx cy 25 0 x y (by norm_num),
    burningShipIter_mem x y 20 0 0 0 (by norm_num),
    tricornIter_mem x y 50 0 0 0 (by norm_num),
    phoenixIter_mem x y 50 0 0 0 0 0 (by norm_num),
    novaIter_mem 50 0 x y (by norm_num),
    computeStrangeAttractor_mem x y,
    computeChaosFractal_mem x y,
    computePsychedelicWaves_mem x y⟩

/-! ## C6: entity lifecycle -/

/-- A sequence of `WeirdEntity::update` calls (screen 800×600, as the
manager performs them). -/
noncomputable def applyUpdates (rng : ℝ → ℝ → ℝ) (rngInt : ℤ → ℤ → ℤ)
    (e : WeirdEntity) (ds : List ℝ) : WeirdEntity :=
  ds.foldl (fun e d => WeirdEntity.update rng rngInt d 800 600 e) e

/-- A sequence of `WeirdVisualManager::update` calls. -/
noncomputable def applyManagerUpdates (rng : ℝ → ℝ → ℝ) (rngInt : ℤ → ℤ → ℤ)
    (M : WeirdVisualManager) (ds : List ℝ) : WeirdVisualManager :=
  ds.foldl (fun m d => WeirdVisualManager.update rng rngInt d m) M

theorem entityChaosEvent_life (rng : ℝ → ℝ → ℝ) (rngInt : ℤ → ℤ → ℤ)
    (e : WeirdEntity) : (entityChaosEvent rng rngInt e).life = e.life := by
  unfold entityChaosEvent
  dsimp only
  split_ifs <;> rfl

theorem entityWrap_life (e : WeirdEntity) : (entityWrap e).life = e.life := by
  unfold entityWrap
  dsimp only
  split_ifs <;> rfl

theorem update_life (rng : ℝ → ℝ → ℝ) (rngInt : ℤ → ℤ → ℤ) (dt : ℝ)
    (w h : ℤ) (e : WeirdEntity) :
    (WeirdEntity.update rng rngInt dt w h e).life = e.life - dt := by
  unfold WeirdEntity.update
  dsimp only
  rw [entityWrap_life, entityChaosEvent_life]

theorem applyUpdates_life (rng : ℝ → ℝ → ℝ) (rngInt : ℤ → ℤ → ℤ) :
    ∀ (ds : List ℝ) (e : WeirdEntity),
      (applyUpdates rng rngInt e ds).life = e.life - ds.sum := by
  intro ds
  induction ds with
  | nil => intro e; simp [applyUpdates]
  | cons d t ih =>
    intro e
    have h1 : applyUpdates rng rngInt e (d :: t)
        = applyUpdates rng rngInt (WeirdEntity.update rng rngInt d 800 600 e) t := rfl
    rw [h1, ih, update_life, List.sum_cons]
    ring

theorem manager_step_eq (rng : ℝ → ℝ → ℝ) (rngInt : ℤ → ℤ → ℤ) (d : ℝ)
    (M : WeirdVisualManager) (hcap : M.maxEntities = 0)
    (hrng : ¬ rng 0 1 < 0.01) :
    WeirdVisualManager.update rng rngInt d M
      = { M with
          entities := (M.entities.map (WeirdEntity.update rng rngInt d 800 600)).filter
            (fun e => decide (¬ e.isDead))
          spawnTimer := M.spawnTimer + d } := by
  unfold WeirdVisualManager.update
  dsimp only
  have hnospawn : ¬ (M.spawnTimer + d ≥ M.spawnInterval ∧
      (((M.entities.map (WeirdEntity.update rng rngInt d 800 600)).filter
        (fun e => decide (¬ e.isDead))).length : ℤ) < M.maxEntities) := by
    rintro ⟨-, hlen⟩
    rw [hcap] at hlen
    exact (Int.natCast_nonneg _).not_lt hlen
  rw [if_neg hrng, if_neg hnospawn]

theorem manager_run_empty (rng : ℝ → ℝ → ℝ) (rngInt : ℤ → ℤ → ℤ)
    (hrng : ¬ rng 0 1 < 0.01) :
    ∀ (ds : List ℝ) (M : WeirdVisualManager),
      M.entities = [] → M.maxEntities = 0 →
      (applyManagerUpdates rng rngInt M ds).entities = [] := by
  intro ds
  induction ds with
  | nil => intro M hM _; exact hM
  | cons d t ih =>
    intro M hM hcap
    have h1 : applyManagerUpdates rng rngInt M (d :: t)
        = applyManagerUpdates rng rngInt (WeirdVisualManager.update rng rngInt d M) t := rfl
    rw [h1, manager_step_eq rng rngInt d M hcap hrng]
    exact ih _ (by rw [hM]; rfl) hcap

theorem manager_run_single (rng : ℝ → ℝ → ℝ) (rngInt : ℤ → ℤ → ℤ)
    (hrng : ¬ rng 0 1 < 0.01) :
    ∀ (ds : List ℝ) (M : WeirdVisualManager) (e : WeirdEntity),
      (∀ d ∈ ds, 0 < d) → M.entities = [e] → M.maxEntities = 0 → 0 < e.life →
      ((applyManagerUpdates rng rngInt M ds).entities ≠ [] ↔ ds.sum < e.life) := by
  intro ds
  induction ds with
  | nil =>
    intro M e _ hM _ hlife
    rw [List.sum_nil]
    refine iff_of_true ?_ hlife
    show M.entities ≠ []
    rw [hM]
    exact List.cons_ne_nil e []
  | cons d t ih =>
    intro M e hpos hM hcap hlife
    have h1 : applyManagerUpdates rng rngInt M (d :: t)
        = applyManagerUpdates rng rngInt (WeirdVisualManager.update rng rngInt d M) t := rfl
    have hstep := manager_step_eq rng rngInt d M hcap hrng
    have htsum : (0 : ℝ) ≤ t.sum :=
      List.sum_nonneg (fun x hx => le_of_lt (hpos x (List.mem_cons_of_mem d hx)))
    have hd : 0 < d := hpos d (List.mem_cons_self d t)
    have hlife' : (WeirdEntity.update rng rngInt d 800 600 e).life = e.life - d :=
      update_life rng rngInt d 800 600 e
    rw [h1, hstep, hM, List.sum_cons]
    by_cases hdead : (WeirdEntity.update rng rngInt d 800 600 e).life ≤ 0
    · have hfilter :
          ([e].map (WeirdEntity.update rng rngInt d 800 600)).filter
            (fun e => decide (¬ e.isDead)) = [] := by
        simp [List.filter, WeirdEntity.isDead, hdead]
      rw [hfilter]
      have hempty := manager_run_empty rng rngInt hrng t
        { M with
          entities := []
          spawnTimer := M.spawnTimer + d } rfl hcap
      rw [hempty]
      have : ¬ (d + t.sum < e.life) := by
        rw [hlife'] at hdead
        linarith
      exact iff_of_false (fun hne => hne rfl) this
    · push_neg at hdead
      have hfilter :
          ([e].map (WeirdEntity.update rng rngInt d 800 600)).filter
            (fun e => decide (¬ e.isDead)) = [WeirdEntity.update rng rngInt d 800 600 e] := by
        have hnotdead : ¬ (WeirdEntity.update rng rngInt d 800 600 e).isDead :=
          not_le.mpr hdead
        simp [List.filter, WeirdEntity.isDead, hnotdead, not_le.mpr hdead]
      rw [hfilter]
      have := ih { M with
          entities := [WeirdEntity.update rng rngInt d 800 600 e]
          spawnTimer := M.spawnTimer + d }
        (WeirdEntity.update rng rngInt d 800 600 e)
        (fun x hx => hpos x (List.mem_cons_of_mem d hx)) rfl hcap hdead
      rw [this, hlife']
      constructor <;> intro <;> linarith

/-- C6: an entity constructed with `maxLife = L` ticked by positive deltas
`d₁..dₙ` is dead (`isDead`, and the manager's update pass drops it) exactly
when `d₁+⋯+dₙ ≥ L`, and is alive and retained whenever the cumulative sum is
strictly below `L`.  The manager is taken with `maxEntities = 0` and a random
oracle that does not fire the 1% cap re-roll, so that no spawns interleave. -/
theorem entity_lifecycle (rng : ℝ → ℝ → ℝ) (rngInt : ℤ → ℤ → ℤ) (L : ℝ)
    (ds : List ℝ) (e : WeirdEntity) (M : WeirdVisualManager)
    (hpos : ∀ d ∈ ds, 0 < d) (hL : 0 < L) (hlife : e.life = L)
    (hmax : e.maxLife = L) (hM : M.entities = [e]) (hcap : M.maxEntities = 0)
    (hrng : ¬ rng 0 1 < 0.01) :
    ((applyUpdates rng rngInt e ds).isDead ↔ L ≤ ds.sum) ∧
      ((applyManagerUpdates rng rngInt M ds).entities ≠ [] ↔ ds.sum < L) := by
  constructor
  · unfold WeirdEntity.isDead
    rw [applyUpdates_life, hlife]
    constructor <;> intro <;> linarith
  · rw [← hlife] at hL ⊢
    exact manager_run_single rng rngInt hrng ds M e hpos hM hcap hL

/-- Witness for C6: a fresh entity with `maxLife = 5` under two updates of
`2` seconds is still alive and retained (`2 + 2 < 5`). -/
theorem entity_lifecycle_witness :
    ((applyUpdates rngMid rngIntLo
        (WeirdEntity.mk 0 0 0 0 0 0 1 1 1 0 0 5 5 0 0 []) [2, 2]).isDead ↔
      (5 : ℝ) ≤ ([2, 2] : List ℝ).sum) ∧
    ((applyManagerUpdates rngMid rngIntLo
        (WeirdVisualManager.mk [WeirdEntity.mk 0 0 0 0 0 0 1 1 1 0 0 5 5 0 0 []] 0 1 0)
        [2, 2]).entities ≠ [] ↔ ([2, 2] : List ℝ).sum < 5) :=
  entity_lifecycle rngMid rngIntLo 5 [2, 2]
    (WeirdEntity.mk 0 0 0 0 0 0 1 1 1 0 0 5 5 0 0 [])
    (WeirdVisualManager.mk [WeirdEntity.mk 0 0 0 0 0 0 1 1 1 0 0 5 5 0 0 []] 0 1 0)
    (by intro d hd; simp only [List.mem_cons, List.mem_singleton] at hd
        rcases hd with h | h | h <;> first | (rw [h]; norm_num) | exact absurd h (List.not_mem_nil d))
    (by norm_num) rfl rfl rfl rfl (by norm_num [rngMid])

/-! ## C5: equal-color gradient fill -/

theorem shiftLeft_lor_eq_add {a b n : ℕ} (hb : b < 2 ^ n) :
    (a <<< n) ||| b = a * 2 ^ n + b := by
  apply Nat.eq_of_testBit_eq
  intro i
  rw [Nat.testBit_or, Nat.testBit_shiftLeft,
    show a * 2 ^ n + b = 2 ^ n * a + b by ring,
    Nat.testBit_mul_pow_two_add a hb i]
  by_cases h : n ≤ i
  · have hbi : b.testBit i = false :=
      Nat.testBit_lt_two_pow
        (lt_of_lt_of_le hb (Nat.pow_le_pow_right (by norm_num) h))
    simp [h, hbi, Nat.not_lt.mpr h]
  · simp [h, Nat.lt_of_not_le h]

theorem byteOfRat_coe {x : ℕ} (hx : x < 256) :
    byteOfRat ((x : ℚ) / 255 * 255) = x := by
  unfold byteOfRat ratTrunc
  rw [div_mul_cancel₀ _ (by norm_num : (255 : ℚ) ≠ 0), if_pos (by positivity),
    Int.floor_natCast]
  simp [Nat.mod_eq_of_lt hx]

theorem interp_const_color (c : CColor) (w0 w1 w2 : ℚ) (hw : w0 + w1 + w2 = 1) :
    ((c.smul w0).add (c.smul w1)).add (c.smul w2) = c := by
  cases c with
  | mk r g b a =>
    simp only [CColor.smul, CColor.add, CColor.mk.injEq]
    refine ⟨?_, ?_, ?_, ?_⟩
    · linear_combination hw * r
    · linear_combination hw * g
    · linear_combination hw * b
    · linear_combination hw * a

theorem toARGB_ofARGB {c : ℕ} (hc : c < 2 ^ 32) : (CColor.ofARGB c).toARGB = c := by
  have h255 : (0xFF : ℕ) = 2 ^ 8 - 1 := by norm_num
  have hmod : ∀ x : ℕ, x &&& 0xFF = x % 2 ^ 8 := fun x => by
    rw [h255, Nat.and_pow_two_sub_one_eq_mod]
  have hlt : ∀ x : ℕ, x &&& 0xFF < 256 := fun x => by
    rw [hmod]
    exact Nat.mod_lt _ (by norm_num)
  unfold CColor.toARGB CColor.ofARGB
  simp only []
  rw [byteOfRat_coe (hlt (c >>> 24)), byteOfRat_coe (hlt (c >>> 16)),
    byteOfRat_coe (hlt (c >>> 8)), byteOfRat_coe (hlt c)]
  have hlt8 : ∀ x : ℕ, x &&& 0xFF < 2 ^ 8 := fun x => by
    have := hlt x
    norm_num at this ⊢
    exact this
  rw [Nat.lor_assoc, Nat.lor_assoc]
  rw [shiftLeft_lor_eq_add (b := (c >>> 8 &&& 0xFF) <<< 8 ||| (c &&& 0xFF)) ?hb1]
  case hb1 =>
    rw [shiftLeft_lor_eq_add (hlt8 c)]
    have h1 := hlt (c >>> 8)
    have h2 := hlt c
    omega
  rw [shiftLeft_lor_eq_add (hlt8 c)]
  rw [shiftLeft_lor_eq_add ?hb2]
  case hb2 =>
    have h1 := hlt (c >>> 16)
    have h2 := hlt (c >>> 8)
    have h3 := hlt c
    omega
  rw [hmod, hmod, hmod, hmod, Nat.shiftRight_eq_div_pow, Nat.shiftRight_eq_div_pow,
    Nat.shiftRight_eq_div_pow]
  omega

/-- Barycentric weights computed through the `sign` helper always sum to 1
(for a nondegenerate area): `s0 + s1 + s2 = area` is a polynomial identity. -/
theorem sign2_weights_sum (x0 y0 x1 y1 x2 y2 x y : ℤ)
    (harea : sign2 x0 y0 x1 y1 x2 y2 ≠ 0) :
    sign2 x y x1 y1 x2 y2 / sign2 x0 y0 x1 y1 x2 y2
      + sign2 x0 y0 x y x2 y2 / sign2 x0 y0 x1 y1 x2 y2
      + sign2 x0 y0 x1 y1 x y / sign2 x0 y0 x1 y1 x2 y2 = 1 := by
  rw [div_add_div_same, div_add_div_same, div_eq_one_iff_eq harea]
  unfold sign2
  push_cast
  ring

/-- C5 (amended): `fillTriangleGradient` with all three vertex colors equal
to `c` is pixel-for-pixel identical to `fillTriangleBarycentric` with color
`c` (the gradient fill is the barycentric algorithm; with equal vertex colors
the interpolated color collapses to `c` everywhere). -/
theorem fillTriangleGradient_const_eq_barycentric (buf : PixelBuffer)
    (x0 y0 x1 y1 x2 y2 : ℤ) (c : ℕ) (hc : c < 2 ^ 32) :
    fillTriangleGradient buf x0 y0 c x1 y1 c x2 y2 c
      = fillTriangleBarycentric buf x0 y0 x1 y1 x2 y2 c := by
  unfold fillTriangleGradient fillTriangleBarycentric
  by_cases harea : |sign2 x0 y0 x1 y1 x2 y2| < 1 / 1000
  · rw [if_pos harea, if_pos harea]
  · rw [if_neg harea, if_neg harea]
    have harea0 : sign2 x0 y0 x1 y1 x2 y2 ≠ 0 := by
      intro h
      exact harea (by rw [h]; norm_num)
    congr 1
    funext b y
    congr 1
    funext b' x
    dsimp only
    rw [interp_const_color (CColor.ofARGB c) _ _ _
        (sign2_weights_sum x0 y0 x1 y1 x2 y2 x y harea0),
      toARGB_ofARGB hc]

/-- Witness for C5 (amended) at a concrete triangle and color. -/
theorem fillTriangleGradient_const_eq_barycentric_witness :
    fillTriangleGradient (PixelBuffer.mk 8 8 (fun _ _ => 0)) 1 1 0xFF123456
        6 2 0xFF123456 3 6 0xFF123456
      = fillTriangleBarycentric (PixelBuffer.mk 8 8 (fun _ _ => 0)) 1 1 6 2 3 6
          0xFF123456 :=
  fillTriangleGradient_const_eq_barycentric (PixelBuffer.mk 8 8 (fun _ _ => 0))
    1 1 6 2 3 6 0xFF123456 (by norm_num)

/-- Counterexample to C5 as stated: `fillTriangle` (edge-scanline) and
`fillTriangleGradient` (barycentric) are different algorithms.  On the
colinear triangle `(0,0),(5,5),(10,10)` the scanline fill draws the diagonal
pixels — in particular `(0,0)` — while the gradient fill hits its
degenerate-area guard and draws nothing. -/
theorem intRange_self (k : ℤ) : intRange k k = [k] := by
  unfold intRange
  have h1 : (k + 1 - k) = 1 := by ring
  rw [h1]
  have h2 : (1 : ℤ).toNat = 1 := rfl
  rw [h2]
  have h3 : List.range 1 = [0] := rfl
  rw [h3]
  simp

theorem fillTriangle_vs_gradient_differ :
    (fillTriangle (PixelBuffer.mk 16 16 (fun _ _ => 0)) 0 0 5 5 10 10
        0xFF123456).getPixel 0 0 = 0xFF123456 ∧
      (fillTriangleGradient (PixelBuffer.mk 16 16 (fun _ _ => 0)) 0 0 0xFF123456
        5 5 0xFF123456 10 10 0xFF123456).getPixel 0 0 = 0 := by
  constructor
  · have hrange : intRange 0 10 = [0, 1, 2, 3, 4, 5, 6, 7, 8, 9, 10] := by decide
    unfold fillTriangle
    norm_num
    rw [hrange]
    simp only [List.foldl_cons, List.foldl_nil]
    unfold drawScanline
    norm_num [ratTrunc, intRange_self]
    unfold PixelBuffer.getPixel PixelBuffer.setPixel
    norm_num
  · unfold fillTriangleGradient
    norm_num [sign2]
    unfold PixelBuffer.getPixel
    norm_num

/-! ## C10: full opacity of the field engine's colors -/

theorem alphaByte_ff_or {x : ℕ} (hx : x < 2 ^ 24) :
    alphaByte (0xFF000000 ||| x) = 0xFF := by
  have h1 : (0xFF000000 : ℕ) = 255 <<< 24 := by
    rw [Nat.shiftLeft_eq]
  rw [h1, shiftLeft_lor_eq_add hx]
  unfold alphaByte
  rw [Nat.shiftRight_eq_div_pow]
  have h2 : (255 * 2 ^ 24 + x) / 2 ^ 24 = 255 := by omega
  rw [h2]
  decide

theorem alphaByte_pack (ri gi bi : ℕ) (hr : ri < 256) (hg : gi < 256)
    (hb : bi < 256) :
    alphaByte (0xFF000000 ||| (ri <<< 16) ||| (gi <<< 8) ||| bi) = 0xFF := by
  rw [Nat.lor_assoc, Nat.lor_assoc]
  apply alphaByte_ff_or
  rw [shiftLeft_lor_eq_add (b := (gi <<< 8) ||| bi) ?hb1]
  case hb1 =>
    rw [shiftLeft_lor_eq_add hb]
    omega
  rw [shiftLeft_lor_eq_add hb]
  omega

theorem hsvToRgb_alpha (h s v : ℝ) : alphaByte (hsvToRgb h s v) = 0xFF := by
  unfold hsvToRgb
  dsimp only
  exact alphaByte_pack _ _ _ (Nat.mod_lt _ (by norm_num))
    (Nat.mod_lt _ (by norm_num)) (Nat.mod_lt _ (by norm_num))

theorem foldl_preserve_mem {α β : Type} (P : β → Prop) (f : β → α → β) :
    ∀ (l : List α), (∀ b a, a ∈ l → P b → P (f b a)) → ∀ b, P b → P (l.foldl f b) := by
  intro l
  induction l with
  | nil => intro _ b hb; exact hb
  | cons a t ih =>
    intro h b hb
    exact ih (fun b' x hx => h b' x (List.mem_cons_of_mem a hx)) (f b a)
      (h b a (List.mem_cons_self a t) hb)

theorem cellStep_color_opaque (p : FieldParams) (rng : ℝ → ℝ → ℝ)
    (g : FieldGrids) (q : ℤ × ℤ)
    (hg : ∀ a b, alphaByte (g.color a b) = 0xFF) :
    ∀ a b, alphaByte ((cellStep p rng g q).color a b) = 0xFF := by
  intro a b
  unfold cellStep
  dsimp only
  unfold fupd
  by_cases hab : a = q.2 ∧ b = q.1
  · rw [if_pos hab]
    exact hsvToRgb_alpha _ _ _
  · rw [if_neg hab]
    exact hg a b

theorem getPixel_setPixel_cases (b : PixelBuffer) (xx yy : ℤ) (v : ℕ) (x y : ℤ) :
    (b.setPixel xx yy v).getPixel x y = b.getPixel x y ∨
      (b.setPixel xx yy v).getPixel x y = v := by
  unfold PixelBuffer.setPixel
  split_ifs with h1
  · unfold PixelBuffer.getPixel
    dsimp only
    split_ifs with h2 h3
    · exact Or.inr rfl
    · exact Or.inl rfl
    · exact Or.inl rfl
  · exact Or.inl rfl

theorem construct_colorGrid (rng : ℝ → ℝ → ℝ) (rngInt : ℤ → ℤ → ℤ) (w h : ℕ) :
    (FieldStore.construct rng rngInt w h).colorGrid
      = List.replicate h (List.replicate w 0xFF000000) := by
  unfold FieldStore.construct
  exact (initialize_shapes rng rngInt _).2.2.2.2.2.1

theorem render_opaque (st : FieldStore) (b : PixelBuffer)
    (hst : ∀ row ∈ st.colorGrid, ∀ c ∈ row, alphaByte c = 0xFF) :
    ∀ x y, (st.render b).getPixel x y = b.getPixel x y ∨
      alphaByte ((st.render b).getPixel x y) = 0xFF := by
  unfold FieldStore.render
  refine foldl_preserve_mem
    (fun b' => ∀ x y, b'.getPixel x y = b.getPixel x y ∨
      alphaByte (b'.getPixel x y) = 0xFF)
    _ _ ?_ b (fun _ _ => Or.inl rfl)
  intro b' yy hyy hb'
  dsimp only
  split_ifs with hh
  · refine foldl_preserve_mem
      (fun b'' => ∀ x y, b''.getPixel x y = b.getPixel x y ∨
        alphaByte (b''.getPixel x y) = 0xFF) _ _ ?_ b' hb'
    intro b'' xx hxx hb''
    dsimp only
    split_ifs with hw
    · intro x y
      have hyy' : yy < st.colorGrid.length := List.mem_range.mp hyy
      have hrow : st.colorGrid[yy]?.getD [] = st.colorGrid[yy] := by
        rw [List.getElem?_eq_getElem hyy']
        rfl
      have hxx' : xx < (st.colorGrid[yy]?.getD []).length := List.mem_range.mp hxx
      have hxx2 : xx < (st.colorGrid[yy]).length := by
        rw [hrow] at hxx'
        exact hxx'
      have hcol : alphaByte ((st.colorGrid[yy]?.getD [])[xx]?.getD 0) = 0xFF := by
        rw [hrow, List.getElem?_eq_getElem hxx2]
        exact hst _ (List.getElem_mem hyy') _ (List.getElem_mem hxx2)
      rcases getPixel_setPixel_cases b'' (xx : ℤ) (yy : ℤ)
          ((st.colorGrid[yy]?.getD [])[xx]?.getD 0) x y with hcase | hcase
      · rw [hcase]
        exact hb'' x y
      · rw [hcase]
        exact Or.inr hcol
    · exact hb''
  · exact hb'

/-- C10: `hsvToRgb` always returns a color whose alpha byte is `0xFF`; a
field-engine update pass writes only such colors (and otherwise keeps the
colour grid), the constructor fills the colour grid with `0xFF000000`, and
`render` copies only colour-grid values into the pixel buffer — so every
pixel the field engine renders is fully opaque. -/
theorem field_engine_opaque :
    (∀ h s v : ℝ, alphaByte (hsvToRgb h s v) = 0xFF) ∧
      (∀ (p : FieldParams) (rng : ℝ → ℝ → ℝ) (g : FieldGrids)
        (order : List (ℤ × ℤ)),
        (∀ a b, alphaByte (g.color a b) = 0xFF) →
        ∀ a b, alphaByte ((passWithOrder p rng g order).color a b) = 0xFF) ∧
      (∀ (rng : ℝ → ℝ → ℝ) (rngInt : ℤ → ℤ → ℤ) (w h : ℕ),
        ∀ row ∈ (FieldStore.construct rng rngInt w h).colorGrid,
        ∀ c ∈ row, alphaByte c = 0xFF) ∧
      (∀ (st : FieldStore) (b : PixelBuffer),
        (∀ row ∈ st.colorGrid, ∀ c ∈ row, alphaByte c = 0xFF) →
        ∀ x y, (st.render b).getPixel x y = b.getPixel x y ∨
          alphaByte ((st.render b).getPixel x y) = 0xFF) := by
  refine ⟨hsvToRgb_alpha, ?_, ?_, render_opaque⟩
  · intro p rng g order hg
    unfold passWithOrder
    induction order generalizing g with
    | nil => exact hg
    | cons q t ih => exact ih (cellStep p rng g q) ( cellStep_color_opaque p rng g q hg)
  · intro rng rngInt w h row hrow c hcel
    rw [construct_colorGrid] at hrow
    rw [List.eq_of_mem_replicate hrow] at hcel
    rw [List.eq_of_mem_replicate hcel]
    rfl

/-- Witness for C10 at a concrete pass state and a concrete rendered
buffer. -/
theorem field_engine_opaque_witness :
    alphaByte ((passWithOrder
        (FieldParams.mk 4 3 0 0 1 0 0 0 1 0 1 (1 / 2) false [])
        rngMid
        (FieldGrids.mk (fun _ _ => 0) (fun _ _ => 0) (fun _ _ => 0)
          (fun _ _ => 0) (fun _ _ => 0) (fun _ _ => 0)
          (fun _ _ => 0xFF000000)) [(1, 1)]).color 1 1) = 0xFF ∧
      (((FieldStore.construct rngMid rngIntLo 2 2).render
          (PixelBuffer.mk 2 2 (fun _ _ => 0))).getPixel 0 0
        = (PixelBuffer.mk 2 2 (fun _ _ => 0)).getPixel 0 0 ∨
        alphaByte (((FieldStore.construct rngMid rngIntLo 2 2).render
          (PixelBuffer.mk 2 2 (fun _ _ => 0))).getPixel 0 0) = 0xFF) :=
  ⟨ field_engine_opaque.2.1 (FieldParams.mk 4 3 0 0 1 0 0 0 1 0 1 (1 / 2) false [])
      rngMid
      (FieldGrids.mk (fun _ _ => 0) (fun _ _ => 0) (fun _ _ => 0)
        (fun _ _ => 0) (fun _ _ => 0) (fun _ _ => 0)
        (fun _ _ => 0xFF000000)) [(1, 1)]
      (fun _ _ => by
        show alphaByte 0xFF000000 = 0xFF
        decide) 1 1,
    field_engine_opaque.2.2.2 (FieldStore.construct rngMid rngIntLo 2 2)
      (PixelBuffer.mk 2 2 (fun _ _ => 0))
      ( field_engine_opaque.2.2.1 rngMid rngIntLo 2 2) 0 0⟩

/-! ## C2: double-buffering of the value grid and order dependence -/

theorem fupd_read_eq {α : Type} (f : ℤ → ℤ → α) (y x : ℤ) (v : α) :
    fupd f y x v y x = v := by
  unfold fupd
  rw [if_pos ⟨rfl, rfl⟩]

theorem fupd_read_ne {α : Type} (f : ℤ → ℤ → α) (y x : ℤ) (v : α) (a b : ℤ)
    (h : ¬(a = y ∧ b = x)) : fupd f y x v a b = f a b := by
  unfold fupd
  rw [if_neg h]

theorem cellStep_grid (p : FieldParams) (rng : ℝ → ℝ → ℝ) (g : FieldGrids)
    (q : ℤ × ℤ) : (cellStep p rng g q).grid = g.grid := rfl

theorem cellStep_next (p : FieldParams) (rng : ℝ → ℝ → ℝ) (g : FieldGrids)
    (q : ℤ × ℤ) :
    (cellStep p rng g q).next = fupd g.next q.2 q.1 (newValue7 p rng g q.1 q.2) := rfl

theorem cellStep_energy (p : FieldParams) (rng : ℝ → ℝ → ℝ) (g : FieldGrids)
    (q : ℤ × ℤ) :
    (cellStep p rng g q).energy = cellEnergy p rng g q.1 q.2 := rfl

theorem cellStep_velX (p : FieldParams) (rng : ℝ → ℝ → ℝ) (g : FieldGrids)
    (q : ℤ × ℤ) :
    (cellStep p rng g q).velX = fupd g.velX q.2 q.1 (velXNewAt p g q.1 q.2) := rfl

theorem cellStep_velY (p : FieldParams) (rng : ℝ → ℝ → ℝ) (g : FieldGrids)
    (q : ℤ × ℤ) :
    (cellStep p rng g q).velY = fupd g.velY q.2 q.1 (velYNewAt p g q.1 q.2) := rfl

/-- C2 (amended): within one pass the value grid itself is never written —
new values go to the `next` grid, swapped in only after the pass — so every
cell's rule evaluation reads the previous tick's full snapshot of the value
grid, whatever the evaluation order. -/
theorem passWithOrder_preserves_grid (p : FieldParams) (rng : ℝ → ℝ → ℝ)
    (g : FieldGrids) (order : List (ℤ × ℤ)) :
    (passWithOrder p rng g order).grid = g.grid := by
  unfold passWithOrder
  induction order generalizing g with
  | nil => rfl
  | cons q t ih => exact (ih (cellStep p rng g q)).trans (cellStep_grid p rng g q)

/-- The concrete field state of the order-dependence counterexample: a 4×3
grid, time 0, Mandelbrot mode, chaos level 1/2, no attractors. -/
noncomputable def ceParams : FieldParams :=
  { width := 4, height := 3, time := 0, fractalType := 0, zoomLevel := 1
    centerX := 0, centerY := 0, centerZ := 0, warpIntensity := 1
    colorShift := 0, pulseSpeed := 1, chaosLevel := 1 / 2
    isTripping := false, attractors := [] }

/-- Counterexample grids: value/velocity/trail grids all zero, energy `1.2`
at the interior cell `(1,1)` and `0.9` at its neighbour `(2,1)`. -/
noncomputable def ceGrids : FieldGrids :=
  { grid := fun _ _ => 0
    next := fun _ _ => 0
    energy := fun a b => if a = 1 ∧ b = 1 then 1.2 else if a = 1 ∧ b = 2 then 0.9 else 0
    velX := fun _ _ => 0
    velY := fun _ _ => 0
    trail := fun _ _ => 0
    color := fun _ _ => 0xFF000000 }

theorem sum_map_zero {α : Type} (l : List α) (f : α → ℝ)
    (h : ∀ a ∈ l, f a = 0) : (l.map f).sum = 0 := by
  apply List.sum_eq_zero
  intro x hx
  rcases List.mem_map.mp hx with ⟨a, ha, rfl⟩
  exact h a ha

theorem totalNeighborsAt_zero (p : FieldParams) (x y : ℤ) :
    totalNeighborsAt p (fun _ _ => 0) x y = 0 := by
  unfold totalNeighborsAt neighbors1 neighbors2 neighbors3
  rw [sum_map_zero, sum_map_zero, sum_map_zero]
  · ring
  · intro i _
    apply sum_map_zero
    intro j _
    split_ifs <;> norm_num
  · intro dy _
    apply sum_map_zero
    intro dx _
    split_ifs <;> norm_num
  · intro dy _
    apply sum_map_zero
    intro dx _
    split_ifs <;> norm_num

theorem ruleValueAt_rs0 (p : FieldParams) (rng : ℝ → ℝ → ℝ) (x y : ℤ)
    (hrs : ruleSetAt p x y = 0) :
    ruleValueAt p rng x y 0 0 = 0 := by
  unfold ruleValueAt
  rw [hrs]
  norm_num

theorem ruleSetAt_ce11 : ruleSetAt ceParams 1 1 = 0 := by
  unfold ruleSetAt cppTruncZ
  have harg : ceParams.time * 2 + ((1 : ℤ) : ℝ) * 0.1 + ((1 : ℤ) : ℝ) * 0.08
      = 0.18 := by
    norm_num [ceParams]
  rw [harg, if_pos (by norm_num)]
  have hfl : ⌊(0.18 : ℝ)⌋ = 0 := by
    rw [Int.floor_eq_zero_iff]
    constructor <;> norm_num
  rw [hfl]
  decide

theorem ruleSetAt_ce21 : ruleSetAt ceParams 2 1 = 0 := by
  unfold ruleSetAt cppTruncZ
  have harg : ceParams.time * 2 + ((2 : ℤ) : ℝ) * 0.1 + ((1 : ℤ) : ℝ) * 0.08
      = 0.28 := by
    norm_num [ceParams]
  rw [harg, if_pos (by norm_num)]
  have hfl : ⌊(0.28 : ℝ)⌋ = 0 := by
    rw [Int.floor_eq_zero_iff]
    constructor <;> norm_num
  rw [hfl]
  decide

theorem fractalValueAt_ce (wx wy : ℝ) :
    fractalValueAt ceParams wx wy = computeMandelbrot wx wy := by
  have ht : ceParams.fractalType.tmod 9 = 0 := by decide
  unfold fractalValueAt
  dsimp only
  rw [ht]
  norm_num

theorem velXNewAt_ce_bound (g : FieldGrids) (x y : ℤ) (hvx : g.velX y x = 0) :
    |velXNewAt ceParams g x y| ≤ 1 / 20 := by
  unfold velXNewAt
  rw [hvx]
  have hch : ceParams.chaosLevel = 1 / 2 := rfl
  rw [hch]
  have hsc : |Real.sin (ceParams.time * 2 + fxAt ceParams x * 5)
      * Real.cos (ceParams.time * 1.7 + fyAt ceParams y * 4)| ≤ 1 := by
    rw [abs_mul]
    exact mul_le_one₀ (Real.abs_sin_le_one _) (abs_nonneg _) (Real.abs_cos_le_one _)
  have h := abs_le.mp hsc
  rw [abs_le]
  constructor <;> nlinarith [h.1, h.2]

theorem velYNewAt_ce_bound (g : FieldGrids) (x y : ℤ) (hvy : g.velY y x = 0) :
    |velYNewAt ceParams g x y| ≤ 1 / 20 := by
  unfold velYNewAt
  rw [hvy]
  have hch : ceParams.chaosLevel = 1 / 2 := rfl
  rw [hch]
  have h := abs_le.mp (Real.abs_cos_le_one (ceParams.time * 1.3 + fxAt ceParams x * 3))
  rw [abs_le]
  constructor <;> nlinarith [h.1, h.2]

theorem newValue4_ce_bound (g : FieldGrids) (x y : ℤ)
    (hgrid : g.grid = fun _ _ => 0)
    (hvx : g.velX y x = 0) (hvy : g.velY y x = 0)
    (hrs : ruleSetAt ceParams x y = 0) :
    -(1 / 50) ≤ newValue4 ceParams rngMid g x y ∧
      newValue4 ceParams rngMid g x y ≤ 11 / 50 := by
  have hatt : ∀ a b v : ℝ, attractorAdd ceParams a b v = v := fun a b v => rfl
  have hmb : computeMandelbrot (warpXAt ceParams x y) (warpYAt ceParams x y)
      ∈ Set.Icc (0 : ℝ) 1 :=
    mandelIter_mem (warpXAt ceParams x y) (warpYAt ceParams x y) 25 0 0 0 (by norm_num)
  have hvxb := abs_le.mp (velXNewAt_ce_bound g x y hvx)
  have hvyb := abs_le.mp (velYNewAt_ce_bound g x y hvy)
  have hch : ceParams.chaosLevel = 1 / 2 := rfl
  unfold newValue4
  rw [hgrid]
  dsimp only
  rw [totalNeighborsAt_zero, ruleValueAt_rs0 _ rngMid _ _ hrs, hatt,
    fractalValueAt_ce, hch]
  obtain ⟨hm0, hm1⟩ := hmb
  constructor <;> nlinarith [hvxb.1, hvxb.2, hvyb.1, hvyb.2]


theorem waveStep_read_ne (p : FieldParams) (x y dy dx : ℤ) (e : ℤ → ℤ → ℝ)
    (a b : ℤ) (h : ¬(a = y + dy ∧ b = x + dx)) :
    waveStep p x y dy e dx a b = e a b := by
  unfold waveStep
  by_cases h1 : 0 ≤ y + dy ∧ y + dy < p.height ∧ 0 ≤ x + dx ∧ x + dx < p.width
  · rw [if_pos h1]
    by_cases h2 : Real.sqrt ((dx : ℝ) * (dx : ℝ) + (dy : ℝ) * (dy : ℝ)) > 0.1
    · rw [if_pos h2, fupd_read_ne _ _ _ _ _ _ h]
    · rw [if_neg h2]
  · rw [if_neg h1]

theorem waveRowFold_read_ne (p : FieldParams) (x y dy : ℤ) (a b : ℤ) :
    ∀ (xs : List ℤ), (∀ dx ∈ xs, ¬(a = y + dy ∧ b = x + dx)) →
      ∀ e, (xs.foldl (waveStep p x y dy) e) a b = e a b := by
  intro xs
  induction xs with
  | nil => intro _ e; rfl
  | cons dx t ih =>
    intro h e
    rw [List.foldl_cons,
      ih (fun d hd => h d (List.mem_cons_of_mem dx hd)) (waveStep p x y dy e dx),
      waveStep_read_ne p x y dy dx e a b (h dx (List.mem_cons_self dx t))]

theorem waveRowsFold_read_ne (p : FieldParams) (x y : ℤ) (a b : ℤ) :
    ∀ (ds : List ℤ), (∀ dy ∈ ds, a ≠ y + dy) →
      ∀ e, (ds.foldl (waveRow p x y) e) a b = e a b := by
  intro ds
  induction ds with
  | nil => intro _ e; rfl
  | cons dy t ih =>
    intro h e
    rw [List.foldl_cons,
      ih (fun d hd => h d (List.mem_cons_of_mem dy hd)) (waveRow p x y e dy)]
    unfold waveRow
    exact waveRowFold_read_ne p x y dy a b _
      (fun dx _ hc => h dy (List.mem_cons_self dy t) hc.1) e

theorem waveStep_ce_read (e : ℤ → ℤ → ℝ) :
    waveStep ceParams 1 1 0 e 1 1 2 = e 1 2 + 0.3 := by
  have hH : ceParams.height = 3 := rfl
  have hW : ceParams.width = 4 := rfl
  unfold waveStep
  rw [if_pos (by rw [hH, hW]; norm_num)]
  have hs : Real.sqrt (((1 : ℤ) : ℝ) * ((1 : ℤ) : ℝ) + ((0 : ℤ) : ℝ) * ((0 : ℤ) : ℝ))
      = 1 := by
    norm_num
  rw [hs]
  rw [if_pos (by norm_num : (1 : ℝ) > 0.1)]
  rw [show (1 : ℤ) + 0 = 1 from by norm_num, show (1 : ℤ) + 1 = 2 from by norm_num,
    fupd_read_eq]
  norm_num

theorem waveRow_ce_read (e : ℤ → ℤ → ℝ) :
    waveRow ceParams 1 1 e 0 1 2 = e 1 2 + 0.3 := by
  unfold waveRow
  rw [show intRange (-3) 3 = [-3, -2, -1, 0] ++ 1 :: [2, 3] from by decide,
    List.foldl_append, List.foldl_cons]
  rw [waveRowFold_read_ne ceParams 1 1 0 1 2 [2, 3]
    (by intro dx hdx hc
        simp only [List.mem_cons, List.not_mem_nil, or_false] at hdx
        rcases hdx with h | h <;> subst h <;> simp at hc) _]
  rw [waveStep_ce_read]
  rw [waveRowFold_read_ne ceParams 1 1 0 1 2 [-3, -2, -1, 0]
    (by intro dx hdx hc
        simp only [List.mem_cons, List.not_mem_nil, or_false] at hdx
        rcases hdx with h | h | h | h <;> subst h <;> simp at hc) e]

theorem waveFold_ce_read (e : ℤ → ℤ → ℝ) :
    waveFold ceParams 1 1 e 1 2 = e 1 2 + 0.3 := by
  unfold waveFold
  rw [show intRange (-3) 3 = [-3, -2, -1] ++ 0 :: [1, 2, 3] from by decide,
    List.foldl_append, List.foldl_cons]
  rw [waveRowsFold_read_ne ceParams 1 1 1 2 [1, 2, 3]
    (by intro dy hdy
        simp only [List.mem_cons, List.not_mem_nil, or_false] at hdy
        rcases hdy with h | h | h <;> subst h <;> norm_num) _]
  rw [waveRow_ce_read]
  rw [waveRowsFold_read_ne ceParams 1 1 1 2 [-3, -2, -1]
    (by intro dy hdy
        simp only [List.mem_cons, List.not_mem_nil, or_false] at hdy
        rcases hdy with h | h | h <;> subst h <;> norm_num) e]

/-- Counterexample to C2 as stated: the update pass is *not* a pure function
of the previous tick's grid snapshot, because the energy grid is mutated in
place during the pass.  On a 4×3 grid (interior cells `(1,1)` and `(2,1)`,
in that row-major order) with energies `1.2` and `0.9`, cell `(1,1)`
explodes and its 7×7 wave pushes `(2,1)`'s energy over the threshold, so
`(2,1)` receives the explosion boost only when it is evaluated *after*
`(1,1)`: the two evaluation orders write different values for cell
`(2,1)`. -/
theorem update_pass_order_dependent :
    interiorCells 4 3 = [(1, 1), (2, 1)] ∧
      (passWithOrder ceParams rngMid ceGrids [(1, 1), (2, 1)]).next 1 2
        ≠ (passWithOrder ceParams rngMid ceGrids [(2, 1), (1, 1)]).next 1 2 := by
  have hrm815 : rngMid 0.8 1.5 = 1.15 := by norm_num [rngMid]
  have hrm51 : rngMid 0.5 1.0 = 0.75 := by norm_num [rngMid]
  have hch : ceParams.chaosLevel = 1 / 2 := rfl
  have hnoise : ¬ (rngMid 0 1 < 0.02 * ceParams.chaosLevel) := by
    rw [hch]
    norm_num [rngMid]
  have hexpA : explodedAt ceParams rngMid ceGrids 1 1 := by
    unfold explodedAt energyAcc
    rw [hrm815]
    have h1 : ceGrids.energy 1 1 = 1.2 := by norm_num [ceGrids]
    have h2 : ceGrids.grid 1 1 = 0 := rfl
    rw [h1, h2]
    have h3 := abs_nonneg (newValue4 ceParams rngMid ceGrids 1 1 - 0)
    nlinarith
  have hg1grid : (cellStep ceParams rngMid ceGrids (1, 1)).grid
      = (fun _ _ => (0 : ℝ)) :=
    (cellStep_grid ceParams rngMid ceGrids (1, 1)).trans rfl
  have hg1vx : (cellStep ceParams rngMid ceGrids (1, 1)).velX 1 2 = 0 := by
    rw [cellStep_velX]
    dsimp only
    rw [fupd_read_ne _ _ _ _ _ _ (by norm_num)]
    rfl
  have hg1vy : (cellStep ceParams rngMid ceGrids (1, 1)).velY 1 2 = 0 := by
    rw [cellStep_velY]
    dsimp only
    rw [fupd_read_ne _ _ _ _ _ _ (by norm_num)]
    rfl
  have hg1energy : (cellStep ceParams rngMid ceGrids (1, 1)).energy 1 2 = 1.2 := by
    rw [cellStep_energy]
    dsimp only
    unfold cellEnergy
    rw [if_pos hexpA, waveFold_ce_read,
      fupd_read_ne _ _ _ _ _ _ (by norm_num), fupd_read_ne _ _ _ _ _ _ (by norm_num)]
    norm_num [ceGrids]
  have hb1 := newValue4_ce_bound (cellStep ceParams rngMid ceGrids (1, 1)) 2 1
    hg1grid hg1vx hg1vy ruleSetAt_ce21
  have hexpB1 : explodedAt ceParams rngMid
      (cellStep ceParams rngMid ceGrids (1, 1)) 2 1 := by
    unfold explodedAt energyAcc
    rw [hrm815, hg1energy]
    have hgg : (cellStep ceParams rngMid ceGrids (1, 1)).grid 1 2 = 0 := by
      rw [hg1grid]
    rw [hgg]
    have h3 := abs_nonneg
      (newValue4 ceParams rngMid (cellStep ceParams rngMid ceGrids (1, 1)) 2 1 - 0)
    nlinarith
  have hval1 : newValue7 ceParams rngMid (cellStep ceParams rngMid ceGrids (1, 1)) 2 1
      = newValue4 ceParams rngMid (cellStep ceParams rngMid ceGrids (1, 1)) 2 1
        + 0.75 := by
    unfold newValue7 newValue5
    rw [if_pos hexpB1, if_neg hnoise, hrm51]
    rw [min_eq_right (by nlinarith [hb1.2]), max_eq_right (by nlinarith [hb1.1])]
  have hb2 := newValue4_ce_bound ceGrids 2 1 rfl rfl rfl ruleSetAt_ce21
  have hexpB2 : ¬ explodedAt ceParams rngMid ceGrids 2 1 := by
    unfold explodedAt energyAcc
    rw [hrm815]
    have h1 : ceGrids.energy 1 2 = 0.9 := by norm_num [ceGrids]
    have h2 : ceGrids.grid 1 2 = 0 := rfl
    rw [h1, h2, gt_iff_lt, not_lt]
    have habs : |newValue4 ceParams rngMid ceGrids 2 1 - 0| ≤ 11 / 50 := by
      rw [sub_zero, abs_le]
      exact ⟨by linarith [hb2.1], hb2.2⟩
    linarith [habs, abs_nonneg (newValue4 ceParams rngMid ceGrids 2 1 - 0)]
  have hval2 : newValue7 ceParams rngMid ceGrids 2 1 ≤ 11 / 50 := by
    unfold newValue7 newValue5
    rw [if_neg hexpB2, if_neg hnoise]
    rw [min_eq_right (by nlinarith [hb2.2])]
    exact max_le (by norm_num) hb2.2
  have hpass1 : (passWithOrder ceParams rngMid ceGrids [(1, 1), (2, 1)]).next 1 2
      = newValue7 ceParams rngMid (cellStep ceParams rngMid ceGrids (1, 1)) 2 1 := by
    show (cellStep ceParams rngMid
      (cellStep ceParams rngMid ceGrids (1, 1)) (2, 1)).next 1 2 = _
    rw [cellStep_next]
    dsimp only
    rw [fupd_read_eq]
  have hpass2 : (passWithOrder ceParams rngMid ceGrids [(2, 1), (1, 1)]).next 1 2
      = newValue7 ceParams rngMid ceGrids 2 1 := by
    show (cellStep ceParams rngMid
      (cellStep ceParams rngMid ceGrids (2, 1)) (1, 1)).next 1 2 = _
    rw [cellStep_next]
    dsimp only
    rw [fupd_read_ne _ _ _ _ _ _ (by norm_num)]
    rw [cellStep_next]
    dsimp only
    rw [fupd_read_eq]
  refine ⟨by decide, ?_⟩
  rw [hpass1, hpass2, hval1]
  intro heq
  have h1 := hb1.1
  linarith [hval2]
